/-
Verification of the enron_email_parser nested-message extraction engine.

This file gives a shallow embedding of the Python sources
(src/email_parser/utils/helpers.py, src/email_parser/extractors/content.py,
src/email_parser/extractors/headers.py, src/email_parser/parser.py,
src/email_parser/models.py) as executable Lean definitions, and settles the
frozen claims C1..C10 about them.

Conventions:
- Python strings are modelled as Lean `String`, manipulated through their
  `List Char` data; helpers named `py...` reproduce the exact Python
  `str` method semantics used by the sources.
- Python `re` patterns are modelled by an explicit regex AST (`Rx`) and a
  fuel-based backtracking matcher that reproduces Python's leftmost,
  preference-ordered (greedy/lazy) match semantics for the constructs
  the source patterns use, including capture groups, lookahead, the
  IGNORECASE / MULTILINE / DOTALL flags and `^`, `$`, `\Z` anchors.
- Functions that can raise in Python are modelled with `Except String`
  (the error value names the Python exception); locals that Python may
  read before assignment are modelled as `Option` values whose `none`
  read raises `UnboundLocalError`.
-/
import Mathlib

namespace EnronParser

/-! ## Python string primitives -/

/-- Python whitespace for `str.strip` / `\s`: space, tab, newline, CR, FF, VT. -/
def isPyWs (c : Char) : Bool :=
  c = ' ' || c = '\t' || c = '\n' || c = '\r' || c = '\x0c' || c = '\x0b'

/-- ASCII lowercase of one char, as Python `str.lower` acts on ASCII. -/
def lowerChar (c : Char) : Char :=
  if 'A' ≤ c && c ≤ 'Z' then Char.ofNat (c.toNat + 32) else c

def lowerL (s : List Char) : List Char := s.map lowerChar

/-- Python `str.lower()` (the sources only lower ASCII data). -/
def pyLower (s : String) : String := ⟨lowerL s.data⟩

def dropWhileWs (s : List Char) : List Char := s.dropWhile (fun c => isPyWs c)

/-- Python `str.strip()` on char lists: drop trailing then leading whitespace. -/
def stripL (s : List Char) : List Char :=
  dropWhileWs ((dropWhileWs s.reverse).reverse)

/-- Python `str.strip()`. -/
def pyStrip (s : String) : String := ⟨stripL s.data⟩

/-- `l.take n = m` test used for prefix checks. -/
def isPrefixL (p s : List Char) : Bool :=
  match p, s with
  | [], _ => true
  | _ :: _, [] => false
  | a :: p', b :: s' => a = b && isPrefixL p' s'

/-- Python `str.startswith(p)`. -/
def pyStartswith (s p : String) : Bool := isPrefixL p.data s.data

/-- Python `str.startswith((p1, p2, ...))`. -/
def pyStartswithAny (s : String) (ps : List String) : Bool :=
  ps.any (fun p => pyStartswith s p)

/-- Python `str.endswith(p)`. -/
def pyEndswith (s p : String) : Bool := isPrefixL p.data.reverse s.data.reverse

/-- First index where substring `p` occurs in `s`, if any (Python `str.find`). -/
def findSubL (s p : List Char) : Option Nat :=
  let rec go : List Char → Nat → Option Nat
    | [], i => if p = [] then some i else none
    | c :: rest, i =>
      if isPrefixL p (c :: rest) then some i else go rest (i + 1)
  go s 0

/-- Python `p in s` substring test. -/
def pyContains (s p : String) : Bool := (findSubL s.data p.data).isSome

/-- Python `s.find(p)`: index or -1. -/
def pyFind (s p : String) : Int :=
  match findSubL s.data p.data with
  | some i => (i : Int)
  | none => -1

/-- Worker for `splitOnL`; after a separator hit at `c :: rest` it skips the
remaining `sep.length - 1` separator chars of `rest` (the sources never split
on an empty separator).  `gas` is structural fuel; `s.length` steps always
suffice since every step consumes at least one char. -/
def splitOnGo (sep : List Char) : Nat → List Char → List Char → List (List Char)
  | _, [], acc => [acc.reverse]
  | 0, s, acc => [acc.reverse ++ s]
  | gas + 1, c :: rest, acc =>
    if isPrefixL sep (c :: rest) then
      acc.reverse :: splitOnGo sep gas (rest.drop (sep.length - 1)) []
    else
      splitOnGo sep gas rest (c :: acc)

/-- Split on an exact separator string, Python `str.split(sep)`: keeps empties. -/
def splitOnL (sep s : List Char) : List (List Char) := splitOnGo sep s.length s []

/-- Python `str.split(sep)` for a non-empty separator. -/
def pySplitOn (s sep : String) : List String :=
  (splitOnL sep.data s.data).map (fun l => ⟨l⟩)

/-- Python `str.split()` with no argument: split on whitespace runs, no empties. -/
def pySplitWs (s : String) : List String :=
  let rec go : List Char → List Char → List (List Char)
    | [], acc => if acc = [] then [] else [acc.reverse]
    | c :: rest, acc =>
      if isPyWs c then
        (if acc = [] then go rest [] else acc.reverse :: go rest [])
      else go rest (c :: acc)
  (go s.data []).map (fun l => ⟨l⟩)

/-- Python `str.join` over a list. -/
def pyJoin (sep : String) : List String → String
  | [] => ""
  | [x] => x
  | x :: xs => x ++ sep ++ pyJoin sep xs

/-- Python slice `s[i:]`. -/
def pyDrop (s : String) (i : Nat) : String := ⟨s.data.drop i⟩

/-- Python slice `s[:i]`. -/
def pyTake (s : String) (i : Nat) : String := ⟨s.data.take i⟩

/-- Python slice `s[i:j]`. -/
def pySlice (s : String) (i j : Nat) : String := ⟨(s.data.take j).drop i⟩

/-- Python `len(s)`. -/
def pyLen (s : String) : Nat := s.data.length

/-- Python `str.replace(old, new)` for single-char old/new, the only use
in the sources (`.replace(' ', '.')`). -/
def pyReplaceChar (s : String) (old new : Char) : String :=
  ⟨s.data.map (fun c => if c = old then new else c)⟩

/-! ## Regex engine

A direct model of the Python `re` constructs used by the sources:
literals, `.`, character classes, concatenation, alternation, greedy and
lazy counted repetition, capturing groups, lookahead `(?=..)`, and the
anchors `^`, `$`, `\Z` under the IGNORECASE / MULTILINE / DOTALL flags.
The matcher is a backtracking matcher in continuation-passing style, so
alternatives are tried in Python's preference order (leftmost match,
left alternative first, greedy repetitions longest-first, lazy
repetitions shortest-first).  Fuel only bounds repetition unfolding; it
is always instantiated large enough that it is never exhausted on the
inputs evaluated in this file. -/

/-- One item of a character class. -/
inductive ClsItem where
  | single (c : Char)
  | range (lo hi : Char)
  | digit
  | word
  | space
deriving Repr, DecidableEq

/-- Regex AST. -/
inductive Rx where
  | eps
  | lit (c : Char)
  | dot
  | cls (neg : Bool) (items : List ClsItem)
  | seq (a b : Rx)
  | alt (a b : Rx)
  | rep (r : Rx) (lo : Nat) (hi : Option Nat) (lazy : Bool)
  | grp (i : Nat) (r : Rx)
  | look (r : Rx)
  | bol
  | eol
  | eoz
deriving Repr, DecidableEq

/-- Python `re` flags: IGNORECASE, MULTILINE, DOTALL. -/
structure RxFlags where
  i : Bool := false
  m : Bool := false
  s : Bool := false
deriving Repr, DecidableEq

def upperChar (c : Char) : Char :=
  if 'a' ≤ c && c ≤ 'z' then Char.ofNat (c.toNat - 32) else c

/-- Case-respecting or case-folding char comparison, per IGNORECASE. -/
def charEq (fl : RxFlags) (pat ch : Char) : Bool :=
  if fl.i then lowerChar pat = lowerChar ch else pat = ch

def clsItemMatch (it : ClsItem) (c : Char) : Bool :=
  match it with
  | .single x => c = x
  | .range lo hi => lo ≤ c && c ≤ hi
  | .digit => '0' ≤ c && c ≤ '9'
  | .word => ('0' ≤ c && c ≤ '9') || ('a' ≤ c && c ≤ 'z') || ('A' ≤ c && c ≤ 'Z') || c = '_'
  | .space => isPyWs c

/-- Class membership; under IGNORECASE both case variants of the char are tried,
matching Python's case-insensitive class behaviour on ASCII. -/
def clsMatch (fl : RxFlags) (neg : Bool) (items : List ClsItem) (c : Char) : Bool :=
  let hit := items.any (fun it =>
    clsItemMatch it c ||
      (fl.i && (clsItemMatch it (lowerChar c) || clsItemMatch it (upperChar c))))
  if neg then !hit else hit

/-- Capture list: (group index, start, end), most recent first. -/
abbrev Caps := List (Nat × Nat × Nat)

def capGet (caps : Caps) (i : Nat) : Option (Nat × Nat) :=
  match caps.find? (fun e => e.1 = i) with
  | some e => some e.2
  | none => none

/-- Matcher continuation: current position, previous char, remaining input,
captures so far. -/
abbrev RxCont := Nat → Option Char → List Char → Caps → Option (Nat × Caps)

/-- The backtracking matcher.  `pos` is the absolute offset of `rest` in the
subject, `prev` the char before `pos` (`none` at the subject start).
Lookahead groups are discarded (no source pattern captures inside one). -/
def rxm (fl : RxFlags) :
    Nat → Rx → Nat → Option Char → List Char → Caps → RxCont →
    Option (Nat × Caps)
  | 0, _, _, _, _, _, _ => none
  | fuel + 1, r, pos, prev, rest, caps, k =>
  match r with
  | .eps => k pos prev rest caps
  | .lit c =>
    match rest with
    | [] => none
    | x :: rs => if charEq fl c x then k (pos + 1) (some x) rs caps else none
  | .dot =>
    match rest with
    | [] => none
    | x :: rs =>
      if x = '\n' && !fl.s then none else k (pos + 1) (some x) rs caps
  | .cls neg items =>
    match rest with
    | [] => none
    | x :: rs => if clsMatch fl neg items x then k (pos + 1) (some x) rs caps else none
  | .seq a b =>
    rxm fl fuel a pos prev rest caps (fun p pv rs cp => rxm fl fuel b p pv rs cp k)
  | .alt a b =>
    match rxm fl fuel a pos prev rest caps k with
    | some res => some res
    | none => rxm fl fuel b pos prev rest caps k
  | .grp i r' =>
    rxm fl fuel r' pos prev rest caps (fun p pv rs cp => k p pv rs ((i, pos, p) :: cp))
  | .look r' =>
    match rxm fl fuel r' pos prev rest caps (fun p _ _ cp => some (p, cp)) with
    | some _ => k pos prev rest caps
    | none => none
  | .bol =>
    if prev = none || (fl.m && prev = some '\n') then k pos prev rest caps else none
  | .eol =>
    if rest = [] || (fl.m && rest.head? = some '\n') || (!fl.m && rest = ['\n']) then
      k pos prev rest caps
    else none
  | .eoz => if rest = [] then k pos prev rest caps else none
  | .rep r' lo hi lazy =>
    match lo with
    | lo' + 1 =>
      rxm fl fuel r' pos prev rest caps (fun p pv rs cp =>
        rxm fl fuel (.rep r' lo' (hi.map (· - 1)) lazy) p pv rs cp k)
    | 0 =>
      match hi with
      | some 0 => k pos prev rest caps
      | _ =>
        let step : Option (Nat × Caps) :=
          rxm fl fuel r' pos prev rest caps (fun p pv rs cp =>
            if p = pos then none
            else rxm fl fuel (.rep r' 0 (hi.map (· - 1)) lazy) p pv rs cp k)
        if lazy then
          match k pos prev rest caps with
          | some res => some res
          | none => step
        else
          match step with
          | some res => some res
          | none => k pos prev rest caps

/-- A regex match: start offset, end offset, captures. -/
structure RxMatch where
  ms : Nat
  me : Nat
  caps : Caps
deriving Repr, DecidableEq

/-- Fuel for the matcher: bounds the recursion depth (one unit per
matcher step along a single backtracking path), ample for every pattern
and subject in this file. -/
def rxFuel : Nat := 100000

/-- The matcher state at absolute offset `n` of subject `full`. -/
def stateAt (full : List Char) (n : Nat) : Option Char × List Char :=
  (if n = 0 then none else (full.take n).getLast?, full.drop n)

/-- Try to match `r` exactly at offset `pos`. -/
def rxMatchAt (fl : RxFlags) (r : Rx) (full : List Char) (pos : Nat) : Option RxMatch :=
  let st := stateAt full pos
  match rxm fl rxFuel r pos st.1 st.2 [] (fun p _ _ cp => some (p, cp)) with
  | some (e, cp) => some ⟨pos, e, cp⟩
  | none => none

/-- Worker for `re.search`: try each start offset in turn; `gas` is
structural fuel kept in sync with `full.length + 2 - pos` by the wrapper. -/
def rxSearchGo (fl : RxFlags) (r : Rx) (full : List Char) :
    Nat → Nat → Option RxMatch
  | _, 0 => none
  | pos, gas + 1 =>
    if pos > full.length then none
    else
      match rxMatchAt fl r full pos with
      | some m => some m
      | none => rxSearchGo fl r full (pos + 1) gas

/-- Python `re.search` scanning from offset `pos`: leftmost match. -/
def rxSearchFrom (fl : RxFlags) (r : Rx) (full : List Char) (pos : Nat) :
    Option RxMatch :=
  rxSearchGo fl r full pos (full.length + 2 - pos)

/-- Python `re.search(pattern, s)`. -/
def rxSearch (fl : RxFlags) (r : Rx) (s : String) : Option RxMatch :=
  rxSearchFrom fl r s.data 0

/-- Python `re.match(pattern, s)`: anchored at the start. -/
def rxMatchStart (fl : RxFlags) (r : Rx) (s : String) : Option RxMatch :=
  rxMatchAt fl r s.data 0

/-- Worker for `re.finditer`: scan from `pos`, collecting non-overlapping
leftmost matches; an empty match advances the scan by one.  `gas` bounds the
number of collected matches; the top-level wrapper supplies `length + 2`,
which can never be exhausted since every step advances `pos`
(`rxSearchFrom_ms_ge` below). -/
def rxFindAllGo (fl : RxFlags) (r : Rx) (full : List Char) :
    Nat → Nat → List RxMatch
  | _, 0 => []
  | pos, gas + 1 =>
    if pos > full.length then []
    else
      match rxSearchFrom fl r full pos with
      | none => []
      | some m =>
        m :: rxFindAllGo fl r full (if m.me ≤ m.ms then m.ms + 1 else m.me) gas

/-- Python `re.finditer(pattern, s)`. -/
def rxFindAll (fl : RxFlags) (r : Rx) (s : String) : List RxMatch :=
  rxFindAllGo fl r s.data 0 (s.data.length + 2)

/-- Group `i` of a match as a string (`none` when the group did not
participate), Python `match.group(i)`. -/
def rxGroup (s : String) (m : RxMatch) (i : Nat) : Option String :=
  match capGet m.caps i with
  | some (a, b) => some (pySlice s a b)
  | none => none

/-- Python `match.group(i)` coerced to `""` when absent, for call sites that
use the group directly as text. -/
def rxGroupD (s : String) (m : RxMatch) (i : Nat) : String :=
  (rxGroup s m i).getD ""

/-- Python `match.group(0)`: the whole matched text. -/
def rxGroup0 (s : String) (m : RxMatch) : String := pySlice s m.ms m.me

/-- The first-match part of Python `re.split` used by `clean_body`
(`parts[0]` of the split, plus whether any match occurred). -/
def rxSplitHead (fl : RxFlags) (r : Rx) (s : String) : String × Bool :=
  match rxSearch fl r s with
  | some m => (pyTake s m.ms, true)
  | none => (s, false)

/-- Python `re.sub(pattern, repl, s)` where `repl` is built from literal
pieces and group back references, as in `re.sub(r'(\w+)\s*\n\s*(\w+)',
r'\1 \2', text)`. -/
inductive SubPiece where
  | lit (t : String)
  | ref (i : Nat)
deriving Repr, DecidableEq

def subTemplate (s : String) (m : RxMatch) : List SubPiece → String
  | [] => ""
  | .lit t :: ps => t ++ subTemplate s m ps
  | .ref i :: ps => rxGroupD s m i ++ subTemplate s m ps

def rxSubApply (s : String) (tmpl : List SubPiece) (ms : List RxMatch) : String :=
  let rec go (pos : Nat) : List RxMatch → String
    | [] => pyDrop s pos
    | m :: rest => pySlice s pos m.ms ++ subTemplate s m tmpl ++ go m.me rest
  go 0 ms

/-- Python `re.sub(pattern, repl, s)`. -/
def rxSub (fl : RxFlags) (r : Rx) (tmpl : List SubPiece) (s : String) : String :=
  rxSubApply s tmpl (rxFindAll fl r s)

/-! ### Pattern-building combinators -/

/-- Concatenation of a list of regexes. -/
def rseq (l : List Rx) : Rx := l.foldr Rx.seq Rx.eps

/-- A literal string. -/
def rlit (s : String) : Rx := rseq (s.data.map Rx.lit)

/-- n-ary alternation (left preference). -/
def raltL (l : List Rx) : Rx :=
  match l with
  | [] => Rx.eps
  | [x] => x
  | x :: xs => Rx.alt x (raltL xs)

/-- `r*` / `r*?`. -/
def rstar (lazy : Bool) (r : Rx) : Rx := Rx.rep r 0 none lazy

/-- `r+` / `r+?`. -/
def rplus (lazy : Bool) (r : Rx) : Rx := Rx.rep r 1 none lazy

/-- `r?`. -/
def ropt (r : Rx) : Rx := Rx.rep r 0 (some 1) false

/-- `r{n,}`. -/
def rmin (n : Nat) (r : Rx) : Rx := Rx.rep r n none false

/-- `r{m,n}`. -/
def rbetween (m n : Nat) (r : Rx) : Rx := Rx.rep r m (some n) false

/-- `.*?` (lazy dot star). -/
def lazyDots : Rx := rstar true Rx.dot

/-- `\d`. -/
def rdigit : Rx := Rx.cls false [.digit]

/-- `\w`. -/
def rword : Rx := Rx.cls false [.word]

/-- `\s`. -/
def rspace : Rx := Rx.cls false [.space]

/-- `\s*`. -/
def rws : Rx := rstar false rspace

/-- `\s+`. -/
def rws1 : Rx := rplus false rspace

/-- `\d{m,n}`. -/
def rdigits (m n : Nat) : Rx := rbetween m n rdigit

/-! ## Datetime model

Model of the slice of Python `datetime` + `pytz` the sources use:
naive/aware datetimes, `datetime.strptime` for the format strings in
`extract_date`, `pytz.timezone('US/Central').localize` followed by
`astimezone(pytz.UTC)`, and `datetime.isoformat()`. -/

/-- A datetime; `tzmin` is the UTC offset in minutes (`none` = naive). -/
structure PyDT where
  year : Nat
  month : Nat
  day : Nat
  hour : Nat
  minute : Nat
  second : Nat
  tzmin : Option Int := none
deriving Repr, DecidableEq

def isLeap (y : Nat) : Bool :=
  (y % 4 = 0 && y % 100 ≠ 0) || y % 400 = 0

def daysInMonth (y m : Nat) : Nat :=
  if m = 2 then (if isLeap y then 29 else 28)
  else if m = 4 || m = 6 || m = 9 || m = 11 then 30
  else 31

/-- `datetime(...)` constructor validity (raises `ValueError` otherwise). -/
def validDT (y m d h mi s : Nat) : Bool :=
  1 ≤ y && y ≤ 9999 && 1 ≤ m && m ≤ 12 && 1 ≤ d && d ≤ daysInMonth y m &&
    h ≤ 23 && mi ≤ 59 && s ≤ 59

/-- Days since 0000-03-01 of a civil date (years ≥ 1), Hinnant's algorithm
restricted to `Nat`. -/
def civilToDays (y m d : Nat) : Nat :=
  let y' := if m ≤ 2 then y - 1 else y
  let era := y' / 400
  let yoe := y' % 400
  let mp := (m + 9) % 12
  let doy := (153 * mp + 2) / 5 + (d - 1)
  let doe := yoe * 365 + yoe / 4 + doy - yoe / 100
  era * 146097 + doe

/-- Inverse of `civilToDays`. -/
def daysToCivil (z : Nat) : Nat × Nat × Nat :=
  let era := z / 146097
  let doe := z % 146097
  let yoe := (doe - doe / 1460 + doe / 36524 - doe / 146096) / 365
  let y' := yoe + era * 400
  let doy := doe - (365 * yoe + yoe / 4 - yoe / 100)
  let mp := (5 * doy + 2) / 153
  let d := doy - (153 * mp + 2) / 5 + 1
  let m := if mp < 10 then mp + 3 else mp - 9
  (if m ≤ 2 then y' + 1 else y', m, d)

/-- Weekday (0 = Sunday) of a civil date. -/
def weekdayOf (y m d : Nat) : Nat :=
  -- 1970-01-01 (day 719468 of this epoch) was a Thursday.
  (civilToDays y m d + 3) % 7

/-- Day of April on which US DST started for years up to 2006
(first Sunday of April). -/
def firstSundayApril (y : Nat) : Nat :=
  1 + (7 - weekdayOf y 4 1) % 7

/-- Day of October on which US DST ended for years up to 2006
(last Sunday of October). -/
def lastSundayOct (y : Nat) : Nat :=
  31 - weekdayOf y 10 31

/-- Day of March on which US DST starts from 2007 (second Sunday). -/
def secondSundayMarch (y : Nat) : Nat :=
  8 + (7 - weekdayOf y 3 8) % 7

/-- Day of November on which US DST ends from 2007 (first Sunday). -/
def firstSundayNov (y : Nat) : Nat :=
  1 + (7 - weekdayOf y 11 1) % 7

/-- Whether a naive local US/Central timestamp falls in daylight-saving
time under `pytz`'s `localize(dt)` (`is_dst=False`) resolution: ambiguous
and nonexistent wall times resolve to standard time, so DST runs from
3:00 on the spring transition day to 1:00 on the autumn transition day in
wall-clock terms.  All timestamps evaluated by the theorems below are in
winter months, far from either boundary. -/
def isDstCentral (y m d h : Nat) : Bool :=
  let tup : Nat := m * 100000 + d * 1000 + h
  if y ≥ 2007 then
    let startT := 3 * 100000 + secondSundayMarch y * 1000 + 3
    let endT := 11 * 100000 + firstSundayNov y * 1000 + 1
    startT ≤ tup && tup < endT
  else
    let startT := 4 * 100000 + firstSundayApril y * 1000 + 3
    let endT := 10 * 100000 + lastSundayOct y * 1000 + 1
    startT ≤ tup && tup < endT

/-- `pytz.timezone('US/Central').localize(dt).astimezone(pytz.UTC)` for a
naive datetime: add 5 hours (CDT) or 6 hours (CST) and tag as UTC. -/
def centralToUtc (dt : PyDT) : PyDT :=
  let offMin := if isDstCentral dt.year dt.month dt.day dt.hour then 300 else 360
  let total := civilToDays dt.year dt.month dt.day * 1440 + dt.hour * 60 + dt.minute + offMin
  let c := daysToCivil (total / 1440)
  { year := c.1, month := c.2.1, day := c.2.2,
    hour := total % 1440 / 60, minute := total % 60, second := dt.second,
    tzmin := some 0 }

def pad2 (n : Nat) : String :=
  if n < 10 then "0" ++ toString n else toString n

def pad4 (n : Nat) : String :=
  if n < 10 then "000" ++ toString n
  else if n < 100 then "00" ++ toString n
  else if n < 1000 then "0" ++ toString n
  else toString n

/-- Python `datetime.isoformat()` (microseconds are always zero here). -/
def isoformat (dt : PyDT) : String :=
  let base := pad4 dt.year ++ "-" ++ pad2 dt.month ++ "-" ++ pad2 dt.day ++ "T" ++
    pad2 dt.hour ++ ":" ++ pad2 dt.minute ++ ":" ++ pad2 dt.second
  match dt.tzmin with
  | none => base
  | some off =>
    let sign := if off < 0 then "-" else "+"
    let a := off.natAbs
    base ++ sign ++ pad2 (a / 60) ++ ":" ++ pad2 (a % 60)

/-! ### `datetime.strptime` for the formats used in `extract_date` -/

/-- One `strptime` directive (or literal / whitespace run). -/
inductive Dir where
  | da   -- %a abbreviated weekday name
  | db   -- %b abbreviated month name
  | dd   -- %d
  | dm   -- %m
  | dY   -- %Y
  | dy   -- %y
  | dH   -- %H
  | dI   -- %I
  | dM   -- %M
  | dS   -- %S
  | dp   -- %p
  | dz   -- %z
  | ws   -- a whitespace run in the format (matches one or more)
  | lit (c : Char)
deriving Repr, DecidableEq

/-- Fields collected while parsing; mirrors CPython `_strptime`. -/
structure TimeFields where
  year : Option Nat := none
  month : Option Nat := none
  day : Option Nat := none
  hour12 : Option Nat := none
  hour24 : Option Nat := none
  minute : Option Nat := none
  second : Option Nat := none
  pm : Option Bool := none
  tz : Option Int := none
deriving Repr, DecidableEq

def isDigitCh (c : Char) : Bool := '0' ≤ c && c ≤ '9'

def digitVal (c : Char) : Nat := c.toNat - '0'.toNat

/-- Python `int(s)` on the all-digit strings produced by the date
regex groups. -/
def pyInt (s : String) : Nat :=
  s.data.foldl (fun acc c => acc * 10 + digitVal c) 0

/-- Parse a 1-or-2-digit number whose 2-digit form must lie in
`[lo2, hi2]` (with "00" allowed iff `lo2 = 0`) and whose 1-digit form must
lie in `[lo1, 9]`; two digits are preferred, as in CPython's `TimeRE`
alternations. -/
def parseNum2 (lo1 lo2 hi2 : Nat) : List Char → Option (Nat × List Char)
  | a :: b :: rest =>
    if isDigitCh a && isDigitCh b then
      let v := digitVal a * 10 + digitVal b
      if lo2 ≤ v && v ≤ hi2 then some (v, rest)
      else if lo1 ≤ digitVal a && digitVal a ≤ 9 then some (digitVal a, b :: rest)
      else none
    else if isDigitCh a && lo1 ≤ digitVal a then some (digitVal a, b :: rest)
    else none
  | [a] => if isDigitCh a && lo1 ≤ digitVal a then some (digitVal a, []) else none
  | [] => none

def parse4Digits : List Char → Option (Nat × List Char)
  | a :: b :: c :: d :: rest =>
    if isDigitCh a && isDigitCh b && isDigitCh c && isDigitCh d then
      some (digitVal a * 1000 + digitVal b * 100 + digitVal c * 10 + digitVal d, rest)
    else none
  | _ => none

def parse2Digits : List Char → Option (Nat × List Char)
  | a :: b :: rest =>
    if isDigitCh a && isDigitCh b then some (digitVal a * 10 + digitVal b, rest)
    else none
  | _ => none

def dayAbbrs : List String := ["mon", "tue", "wed", "thu", "fri", "sat", "sun"]

def monthAbbrs : List String :=
  ["jan", "feb", "mar", "apr", "may", "jun", "jul", "aug", "sep", "oct", "nov", "dec"]

/-- Case-insensitively consume one of `names`; returns its 1-based index. -/
def parseName (names : List String) (s : List Char) : Option (Nat × List Char) :=
  let rec go (i : Nat) : List String → Option (Nat × List Char)
    | [] => none
    | n :: rest =>
      if isPrefixL n.data (lowerL s) then some (i, s.drop n.length)
      else go (i + 1) rest
  go 1 names

/-- `%z`: `[+-]HH[:]?MM` with optional seconds, or `Z`; returns minutes. -/
def parseTz : List Char → Option (Int × List Char)
  | 'Z' :: rest => some (0, rest)
  | c :: rest =>
    if c = '+' || c = '-' then
      match rest with
      | h1 :: h2 :: more =>
        if isDigitCh h1 && isDigitCh h2 then
          let hh := digitVal h1 * 10 + digitVal h2
          let more' := match more with
            | ':' :: m => m
            | m => m
          match more' with
          | m1 :: m2 :: rest' =>
            if isDigitCh m1 && isDigitCh m2 && digitVal m1 ≤ 5 then
              let mm := digitVal m1 * 10 + digitVal m2
              let v : Int := (hh * 60 + mm : Nat)
              some (if c = '-' then -v else v, rest')
            else none
          | _ => none
        else none
      | _ => none
    else none
  | [] => none

/-- Apply one directive to the input, updating the fields. -/
def applyDir (d : Dir) (f : TimeFields) (s : List Char) :
    Option (TimeFields × List Char) :=
  match d with
  | .da => (parseName dayAbbrs s).map (fun (_, r) => (f, r))
  | .db => (parseName monthAbbrs s).map (fun (i, r) => ({ f with month := some i }, r))
  | .dd => (parseNum2 1 1 31 s).map (fun (v, r) => ({ f with day := some v }, r))
  | .dm => (parseNum2 1 1 12 s).map (fun (v, r) => ({ f with month := some v }, r))
  | .dY => (parse4Digits s).map (fun (v, r) => ({ f with year := some v }, r))
  | .dy =>
    (parse2Digits s).map (fun (v, r) =>
      ({ f with year := some (if v < 69 then 2000 + v else 1900 + v) }, r))
  | .dH => (parseNum2 0 0 23 s).map (fun (v, r) => ({ f with hour24 := some v }, r))
  | .dI => (parseNum2 1 1 12 s).map (fun (v, r) => ({ f with hour12 := some v }, r))
  | .dM => (parseNum2 0 0 59 s).map (fun (v, r) => ({ f with minute := some v }, r))
  | .dS => (parseNum2 0 0 59 s).map (fun (v, r) => ({ f with second := some v }, r))
  | .dp =>
    match s with
    | a :: b :: r =>
      if lowerChar a = 'a' && lowerChar b = 'm' then some ({ f with pm := some false }, r)
      else if lowerChar a = 'p' && lowerChar b = 'm' then some ({ f with pm := some true }, r)
      else none
    | _ => none
  | .dz => (parseTz s).map (fun (v, r) => ({ f with tz := some v }, r))
  | .ws =>
    match s with
    | c :: r => if isPyWs c then some (f, r.dropWhile (fun x => isPyWs x)) else none
    | [] => none
  | .lit c =>
    match s with
    | x :: r => if lowerChar x = lowerChar c then some (f, r) else none
    | [] => none

def runDirs (ds : List Dir) (f : TimeFields) (s : List Char) :
    Option TimeFields :=
  match ds with
  | [] => if s = [] then some f else none
  | d :: rest =>
    match applyDir d f s with
    | some (f', s') => runDirs rest f' s'
    | none => none

/-- `datetime.strptime(s, fmt)` for a directive list: parse, resolve the
12/24-hour fields, validate the civil date. -/
def strptime (ds : List Dir) (s : String) : Option PyDT :=
  match runDirs ds {} s.data with
  | none => none
  | some f =>
    let y := f.year.getD 1900
    let mo := f.month.getD 1
    let d := f.day.getD 1
    let h :=
      match f.hour24, f.hour12, f.pm with
      | some h24, _, _ => h24
      | none, some h12, some true => if h12 = 12 then 12 else h12 + 12
      | none, some h12, _ => if h12 = 12 then 0 else h12
      | none, none, _ => 0
    let mi := f.minute.getD 0
    let sec := f.second.getD 0
    if validDT y mo d h mi sec then
      some { year := y, month := mo, day := d, hour := h, minute := mi,
             second := sec, tzmin := f.tz }
    else none

/-! ## Hashes

`hashlib.md5` and the SHA-1 underlying `uuid.uuid5`, over UTF-8 bytes.
The claims only depend on these being deterministic functions of their
input, so no theorem ever evaluates them on large data, but they are the
real algorithms. -/

def u32 (n : Nat) : Nat := n % 4294967296

def rotl32 (x n : Nat) : Nat := u32 ((x <<< n) ||| (x >>> (32 - n)))

def not32 (x : Nat) : Nat := 4294967295 - x

/-- UTF-8 bytes of one char. -/
def utf8Char (c : Char) : List Nat :=
  let n := c.toNat
  if n < 128 then [n]
  else if n < 2048 then [192 + n / 64, 128 + n % 64]
  else if n < 65536 then [224 + n / 4096, 128 + n / 64 % 64, 128 + n % 64]
  else [240 + n / 262144, 128 + n / 4096 % 64, 128 + n / 64 % 64, 128 + n % 64]

/-- Python `s.encode('utf-8')`. -/
def utf8Bytes (s : String) : List Nat := s.data.flatMap utf8Char

def hexDigit (n : Nat) : Char :=
  if n < 10 then Char.ofNat ('0'.toNat + n) else Char.ofNat ('a'.toNat + n - 10)

def byteHex (b : Nat) : List Char := [hexDigit (b / 16), hexDigit (b % 16)]

def bytesToHex (bs : List Nat) : String := ⟨bs.flatMap byteHex⟩

/-- Worker for `chunks` with structural fuel (`l.length` always
suffices since every step consumes at least one element). -/
def chunksGo (n : Nat) : Nat → List α → List (List α)
  | _, [] => []
  | 0, _ => []
  | gas + 1, x :: xs => ((x :: xs).take n) :: chunksGo n gas (xs.drop (n - 1))

/-- Split into chunks of `n` (n > 0 at all call sites). -/
def chunks (n : Nat) (l : List α) : List (List α) := chunksGo n l.length l

def le32Word (bs : List Nat) : Nat :=
  match bs with
  | [a, b, c, d] => a + b * 256 + c * 65536 + d * 16777216
  | _ => 0

def be32Word (bs : List Nat) : Nat :=
  match bs with
  | [a, b, c, d] => d + c * 256 + b * 65536 + a * 16777216
  | _ => 0

def le64Bytes (n : Nat) : List Nat :=
  (List.range 8).map (fun i => n / 256 ^ i % 256)

def be64Bytes (n : Nat) : List Nat :=
  ((List.range 8).map (fun i => n / 256 ^ i % 256)).reverse

def le32Bytes (n : Nat) : List Nat :=
  (List.range 4).map (fun i => n / 256 ^ i % 256)

def be32Bytes (n : Nat) : List Nat :=
  ((List.range 4).map (fun i => n / 256 ^ i % 256)).reverse

/-- Merkle-Damgard padding shared by MD5 (little-endian length) and SHA-1
(big-endian length). -/
def padMsg (littleEndianLen : Bool) (msg : List Nat) : List Nat :=
  let bitLen := msg.length * 8
  let padZeros := (55 + 64 - msg.length % 64) % 64
  msg ++ [128] ++ List.replicate padZeros 0 ++
    (if littleEndianLen then le64Bytes bitLen else be64Bytes bitLen)

def md5K : List Nat :=
  [3614090360, 3905402710, 606105819, 3250441966, 4118548399, 1200080426,
   2821735955, 4249261313, 1770035416, 2336552879, 4294925233, 2304563134,
   1804603682, 4254626195, 2792965006, 1236535329, 4129170786, 3225465664,
   643717713, 3921069994, 3593408605, 38016083, 3634488961, 3889429448,
   568446438, 3275163606, 4107603335, 1163531501, 2850285829, 4243563512,
   1735328473, 2368359562, 4294588738, 2272392833, 1839030562, 4259657740,
   2763975236, 1272893353, 4139469664, 3200236656, 681279174, 3936430074,
   3572445317, 76029189, 3654602809, 3873151461, 530742520, 3299628645,
   4096336452, 1126891415, 2878612391, 4237533241, 1700485571, 2399980690,
   4293915773, 2240044497, 1873313359, 4264355552, 2734768916, 1309151649,
   4149444226, 3174756917, 718787259, 3951481745]

def md5S : List Nat :=
  [7, 12, 17, 22, 7, 12, 17, 22, 7, 12, 17, 22, 7, 12, 17, 22,
   5, 9, 14, 20, 5, 9, 14, 20, 5, 9, 14, 20, 5, 9, 14, 20,
   4, 11, 16, 23, 4, 11, 16, 23, 4, 11, 16, 23, 4, 11, 16, 23,
   6, 10, 15, 21, 6, 10, 15, 21, 6, 10, 15, 21, 6, 10, 15, 21]

def md5Round (m : List Nat) (st : Nat × Nat × Nat × Nat) (i : Nat) :
    Nat × Nat × Nat × Nat :=
  let (a, b, c, d) := st
  let (f, g) :=
    if i < 16 then ((b &&& c) ||| (not32 b &&& d), i)
    else if i < 32 then ((d &&& b) ||| (not32 d &&& c), (5 * i + 1) % 16)
    else if i < 48 then (b ^^^ c ^^^ d, (3 * i + 5) % 16)
    else (c ^^^ (b ||| not32 d), (7 * i) % 16)
  let f' := u32 (f + a + md5K.getD i 0 + m.getD g 0)
  (d, u32 (b + rotl32 f' (md5S.getD i 0)), b, c)

def md5Block (st : Nat × Nat × Nat × Nat) (blk : List Nat) :
    Nat × Nat × Nat × Nat :=
  let m := (chunks 4 blk).map le32Word
  let (a, b, c, d) := (List.range 64).foldl (md5Round m) st
  let (a0, b0, c0, d0) := st
  (u32 (a0 + a), u32 (b0 + b), u32 (c0 + c), u32 (d0 + d))

/-- MD5 digest bytes of a byte message. -/
def md5Bytes (msg : List Nat) : List Nat :=
  let init := (1732584193, 4023233417, 2562383102, 271733878)
  let (a, b, c, d) := (chunks 64 (padMsg true msg)).foldl md5Block init
  le32Bytes a ++ le32Bytes b ++ le32Bytes c ++ le32Bytes d

/-- `hashlib.md5(s.encode('utf-8')).hexdigest()`. -/
def md5Hex (s : String) : String := bytesToHex (md5Bytes (utf8Bytes s))

def sha1ExpandStep (w : List Nat) (_ : Nat) : List Nat :=
  w ++ [rotl32 (w.getD (w.length - 3) 0 ^^^ w.getD (w.length - 8) 0 ^^^
    w.getD (w.length - 14) 0 ^^^ w.getD (w.length - 16) 0) 1]

def sha1Round (w : List Nat) (st : Nat × Nat × Nat × Nat × Nat) (i : Nat) :
    Nat × Nat × Nat × Nat × Nat :=
  let (a, b, c, d, e) := st
  let (f, k) :=
    if i < 20 then ((b &&& c) ||| (not32 b &&& d), 1518500249)
    else if i < 40 then (b ^^^ c ^^^ d, 1859775393)
    else if i < 60 then ((b &&& c) ||| (b &&& d) ||| (c &&& d), 2400959708)
    else (b ^^^ c ^^^ d, 3395469782)
  (u32 (rotl32 a 5 + f + e + k + w.getD i 0), a, rotl32 b 30, c, d)

def sha1Block (st : Nat × Nat × Nat × Nat × Nat) (blk : List Nat) :
    Nat × Nat × Nat × Nat × Nat :=
  let w0 := (chunks 4 blk).map be32Word
  let w := (List.range 64).foldl sha1ExpandStep w0
  let (a, b, c, d, e) := (List.range 80).foldl (sha1Round w) st
  let (a0, b0, c0, d0, e0) := st
  (u32 (a0 + a), u32 (b0 + b), u32 (c0 + c), u32 (d0 + d), u32 (e0 + e))

/-- SHA-1 digest bytes of a byte message. -/
def sha1Bytes (msg : List Nat) : List Nat :=
  let init := (1732584193, 4023233417, 2562383102, 271733878, 3285377520)
  let (a, b, c, d, e) := (chunks 64 (padMsg false msg)).foldl sha1Block init
  be32Bytes a ++ be32Bytes b ++ be32Bytes c ++ be32Bytes d ++ be32Bytes e

/-- The bytes of `uuid.NAMESPACE_DNS`. -/
def namespaceDnsBytes : List Nat :=
  [107, 167, 184, 16, 157, 173, 17, 209, 128, 180, 0, 192, 79, 212, 48, 200]

/-- `str(uuid.uuid5(uuid.NAMESPACE_DNS, name))`. -/
def uuid5Dns (name : String) : String :=
  let h := (sha1Bytes (namespaceDnsBytes ++ utf8Bytes name)).take 16
  let b := h.mapIdx (fun i v =>
    if i = 6 then v % 16 + 80 else if i = 8 then v % 64 + 128 else v)
  let hx := b.flatMap byteHex
  ⟨hx.take 8 ++ ['-'] ++ (hx.drop 8).take 4 ++ ['-'] ++ (hx.drop 12).take 4 ++
    ['-'] ++ (hx.drop 16).take 4 ++ ['-'] ++ hx.drop 20⟩

/-! ## Models of the `email.utils` address parsing used by the sources

`parseaddr` / `getaddresses` are Python standard library functions (not
repository code); they are modelled here for the plain address-list
shapes the repository feeds them: bare atoms, `Name <addr>` pairs and
comma-separated lists of those.  Comments, escapes and nested routes are
outside the shapes exercised by any theorem below. -/

/-- Split a header value on commas that are outside double quotes and
angle brackets, as `email.utils.getaddresses` separates addresses. -/
def splitTopCommas (s : List Char) : List (List Char) :=
  let rec go : List Char → Bool → Bool → List Char → List (List Char)
    | [], _, _, acc => [acc.reverse]
    | c :: rest, inQ, inA, acc =>
      if c = '"' then go rest (!inQ) inA (c :: acc)
      else if !inQ && c = '<' then go rest inQ true (c :: acc)
      else if !inQ && c = '>' then go rest inQ false (c :: acc)
      else if !inQ && !inA && c = ',' then acc.reverse :: go rest inQ inA []
      else go rest inQ inA (c :: acc)
  go s false false []

/-- Model of `email.utils.parseaddr` for the shapes used here: an
angle-bracketed address with optional display name, or a bare token. -/
def parseaddr (s : String) : String × String :=
  match findSubL s.data ['<'] with
  | some i =>
    let afterLt := s.data.drop (i + 1)
    let addr := afterLt.takeWhile (fun c => c ≠ '>')
    let name := stripL (s.data.take i)
    (⟨name⟩, ⟨addr⟩)
  | none => ("", ⟨stripL s.data⟩)

/-- Model of `email.utils.getaddresses([header_value])`. -/
def getaddresses (s : String) : List (String × String) :=
  if s = "" then []
  else (splitTopCommas s.data).map (fun part => parseaddr ⟨part⟩)

/-! ## src/email_parser/utils/helpers.py -/

/-- `generate_id(content, file_id=None, message_index=None)`
(helpers.py lines 15-61).  A truthy `file_id` gives
`md5(str(file_id))[:16]` and the `message_index` is deliberately unused;
otherwise a bounded content sample is hashed in full. -/
def generate_id (content : String) (file_id : Option String := none)
    (message_index : Option Nat := none) : String :=
  let _ := message_index
  let contentHash :=
    if pyLen content > 1000 then
      let n := pyLen content
      let beginning := pyTake content 300
      let middleStart := n / 2 - 150
      let middle := pySlice content middleStart (middleStart + 300)
      let endPart := pyDrop content (n - 300)
      md5Hex (beginning ++ middle ++ endPart)
    else md5Hex content
  match file_id with
  | some fid => if fid ≠ "" then pyTake (md5Hex fid) 16 else contentHash
  | none => contentHash

/-- `extract_email_address(addr_str)` (helpers.py lines 64-77). -/
def extract_email_address (addr_str : String) : String :=
  if addr_str = "" then ""
  else
    let p := parseaddr addr_str
    if p.2 ≠ "" then pyLower p.2 else ""

/-- `normalize_addresses(header_value)` (helpers.py lines 80-109).  The
`except` fallback around `getaddresses` is dead in this model because
the modelled `getaddresses` is total, matching the library's behaviour
on the header shapes exercised here. -/
def normalize_addresses (header_value : String) : List String :=
  if header_value = "" then []
  else
    let addresses := getaddresses header_value
    let result := (addresses.filter (fun p => p.2 ≠ "")).map
      (fun p => extract_email_address p.2)
    result.filter (fun addr => addr ≠ "")

/-- Flags `re.IGNORECASE | re.MULTILINE | re.DOTALL` used by `clean_body`. -/
def flagsIMS : RxFlags := { i := true, m := true, s := true }

/-- `clean_body` pattern `(From: .*?(\n|\r\n))`. -/
def cbPat1 : Rx :=
  Rx.grp 1 (rseq [rlit "From: ", lazyDots,
    Rx.grp 2 (Rx.alt (rlit "\n") (rlit "\r\n"))])

/-- `clean_body` pattern `(On .* wrote:)`. -/
def cbPat2 : Rx :=
  Rx.grp 1 (rseq [rlit "On ", rstar false Rx.dot, rlit " wrote:"])

/-- `clean_body` pattern `(-+Original Message-+)`. -/
def cbPat3 : Rx :=
  Rx.grp 1 (rseq [rplus false (Rx.lit '-'), rlit "Original Message",
    rplus false (Rx.lit '-')])

/-- `clean_body` pattern `(_{2,}|={2,}|-{2,})\s*\n+`. -/
def cbPat4 : Rx :=
  rseq [Rx.grp 1 (raltL [rmin 2 (Rx.lit '_'), rmin 2 (Rx.lit '='),
    rmin 2 (Rx.lit '-')]), rws, rplus false (Rx.lit '\n')]

/-- `clean_body` pattern `(Forwarded by .*? on .*?-{2,})`. -/
def cbPat5 : Rx :=
  Rx.grp 1 (rseq [rlit "Forwarded by ", lazyDots, rlit " on ", lazyDots,
    rmin 2 (Rx.lit '-')])

/-- `clean_body` pattern `(From:.*?To:.*?Subject:.*?(\n|\r\n))`. -/
def cbPat6 : Rx :=
  Rx.grp 1 (rseq [rlit "From:", lazyDots, rlit "To:", lazyDots,
    rlit "Subject:", lazyDots, Rx.grp 2 (Rx.alt (rlit "\n") (rlit "\r\n"))])

def cleanBodyPatterns : List Rx := [cbPat1, cbPat2, cbPat3, cbPat4, cbPat5, cbPat6]

/-- `clean_body(body)` (helpers.py lines 112-143): successively keep the
text before the first occurrence of each quoting pattern
(`re.split(...)[0]`), then strip. -/
def clean_body (body : String) : String :=
  if body = "" then ""
  else
    let clean_text := cleanBodyPatterns.foldl (fun txt pat =>
      let (head, matched) := rxSplitHead flagsIMS pat txt
      if matched then head else txt) body
    pyStrip clean_text

/-- `extract_header_from_text(text, header_name)` (helpers.py lines
146-159): the pattern `{header_name}:\s*(.*?)(?:\n|$)` under IGNORECASE. -/
def extract_header_from_text (text header_name : String) : String :=
  let pat := rseq [rlit header_name, Rx.lit ':', rws, Rx.grp 1 lazyDots,
    Rx.alt (Rx.lit '\n') Rx.eol]
  match rxSearch { i := true } pat text with
  | some m => pyStrip (rxGroupD text m 1)
  | none => ""

/-! ### `extract_date` (helpers.py lines 185-312) -/

/-- The Enron date regex of both the fast path and the fallback:
`(\d{1,2}/\d{1,2}/\d{4})\s+(\d{1,2}):(\d{2})(?::(\d{2}))?\s*(AM|PM)?`;
the fast path (`re.match`, lines 199-200) additionally anchors it with
`^...$` on the stripped input. -/
def enronDateCore : Rx :=
  rseq [Rx.grp 1 (rseq [rdigits 1 2, Rx.lit '/', rdigits 1 2, Rx.lit '/',
      rdigits 4 4]),
    rws1, Rx.grp 2 (rdigits 1 2), Rx.lit ':', Rx.grp 3 (rdigits 2 2),
    ropt (rseq [Rx.lit ':', Rx.grp 4 (rdigits 2 2)]), rws,
    ropt (Rx.grp 5 (Rx.alt (rlit "AM") (rlit "PM")))]

/-- Build the UTC ISO string from the matched Enron date groups, as lines
202-227 / 283-309 do: 12-hour adjustment, `datetime(...)` validation,
US/Central localization, UTC conversion.  `none` models the swallowed
`ValueError` of an invalid civil date. -/
def enronGroupsToIso (s : String) (m : RxMatch) : Option String :=
  let date_part := rxGroupD s m 1
  let hourS := rxGroupD s m 2
  let minuteS := rxGroupD s m 3
  let secondO := rxGroup s m 4
  let ampmO := rxGroup s m 5
  let hour0 := pyInt hourS
  let hour :=
    match ampmO with
    | some ap =>
      if pyLower ap = "pm" && hour0 < 12 then hour0 + 12
      else if pyLower ap = "am" && hour0 = 12 then 0
      else hour0
    | none => hour0
  let nums := (pySplitOn date_part "/").map pyInt
  let month := nums.getD 0 0
  let day := nums.getD 1 0
  let year := nums.getD 2 0
  let second := match secondO with | some t => pyInt t | none => 0
  let minute := pyInt minuteS
  if validDT year month day hour minute second then
    some (isoformat (centralToUtc
      { year := year, month := month, day := day, hour := hour,
        minute := minute, second := second }))
  else none

/-- Lines 198-227: the anchored fast path on the stripped input. -/
def enronSpecialBranch (header_date : String) : Option String :=
  let t := pyStrip header_date
  match rxMatchStart {} (rseq [enronDateCore, Rx.eol]) t with
  | some m => enronGroupsToIso t m
  | none => none

/-- The twelve `date_formats` of lines 230-248, as directive lists. -/
def dateFormats : List (List Dir) :=
  [ [.da, .lit ',', .ws, .dd, .ws, .db, .ws, .dY, .ws, .dH, .lit ':', .dM,
     .lit ':', .dS, .ws, .dz],
    [.dd, .ws, .db, .ws, .dY, .ws, .dH, .lit ':', .dM, .lit ':', .dS, .ws, .dz],
    [.da, .lit ',', .ws, .dd, .ws, .db, .ws, .dY, .ws, .dH, .lit ':', .dM,
     .lit ':', .dS],
    [.dd, .ws, .db, .ws, .dY, .ws, .dH, .lit ':', .dM, .lit ':', .dS],
    [.dm, .lit '/', .dd, .lit '/', .dY, .ws, .dI, .lit ':', .dM, .lit ':', .dS,
     .ws, .dp],
    [.dm, .lit '/', .dd, .lit '/', .dY, .ws, .dH, .lit ':', .dM, .lit ':', .dS],
    [.dm, .lit '/', .dd, .lit '/', .dY, .ws, .dI, .lit ':', .dM, .ws, .dp],
    [.dm, .lit '/', .dd, .lit '/', .dY, .ws, .dH, .lit ':', .dM],
    [.dm, .lit '/', .dd, .lit '/', .dy, .ws, .dI, .lit ':', .dM, .lit ':', .dS,
     .ws, .dp],
    [.dm, .lit '/', .dd, .lit '/', .dy, .ws, .dH, .lit ':', .dM, .lit ':', .dS],
    [.dm, .lit '/', .dd, .lit '/', .dy, .ws, .dI, .lit ':', .dM, .ws, .dp],
    [.dm, .lit '/', .dd, .lit '/', .dy, .ws, .dH, .lit ':', .dM] ]

/-- The AM/PM normalisation pattern of line 261:
`(\d{1,2}/\d{1,2}/\d{2,4}\s+\d{1,2}:\d{2}(?::\d{2})?\s*(?:AM|PM))`. -/
def amPmExtractRx : Rx :=
  Rx.grp 1 (rseq [rdigits 1 2, Rx.lit '/', rdigits 1 2, Rx.lit '/',
    rdigits 2 4, rws1, rdigits 1 2, Rx.lit ':', rdigits 2 2,
    ropt (rseq [Rx.lit ':', rdigits 2 2]), rws,
    Rx.alt (rlit "AM") (rlit "PM")])

/-- One iteration of the `for fmt in date_formats` loop (lines 251-278):
mutate `header_date` (the `' To:'` truncation then the AM/PM extraction),
then try `strptime`; on success localize naive results to US/Central and
convert to UTC, otherwise keep the mutated string for the next format. -/
def dateFormatStep (hd : String) (fmt : List Dir) : String × Option String :=
  let hd := if pyContains hd " To:" then
      pyStrip ((pySplitOn hd " To:").getD 0 "") else hd
  let hd :=
    if pyContains hd "AM" || pyContains hd "PM" then
      match rxSearch {} amPmExtractRx hd with
      | some m => rxGroupD hd m 1
      | none => hd
    else hd
  let date_str := pyStrip hd
  match strptime fmt date_str with
  | some dt =>
    match dt.tzmin with
    | some _ => (hd, some (isoformat dt))
    | none => (hd, some (isoformat (centralToUtc dt)))
  | none => (hd, none)

/-- The whole format loop; returns the final mutated `header_date` and
the first successful result. -/
def dateFormatLoop (hd : String) : List (List Dir) → String × Option String
  | [] => (hd, none)
  | fmt :: rest =>
    match dateFormatStep hd fmt with
    | (hd', some iso) => (hd', some iso)
    | (hd', none) => dateFormatLoop hd' rest

/-- Lines 281-309: the permissive regex fallback on the (mutated) input. -/
def dateRegexFallback (hd : String) : Option String :=
  match rxSearch {} enronDateCore hd with
  | some m => enronGroupsToIso hd m
  | none => none

/-- `extract_date(header_date)` (helpers.py lines 185-312). -/
def extract_date (header_date : String) : Option String :=
  if header_date = "" then none
  else
    match enronSpecialBranch header_date with
    | some iso => some iso
    | none =>
      match dateFormatLoop header_date dateFormats with
      | (_, some iso) => some iso
      | (hd', none) => dateRegexFallback hd'

/-! ### `process_recipients` (helpers.py lines 315-357) -/

/-- The angle-bracket pattern `<([^>]+)>`. -/
def bracketRx : Rx :=
  rseq [Rx.lit '<', Rx.grp 1 (rplus false (Rx.cls true [.single '>'])),
    Rx.lit '>']

/-- The bracket-with-`@` pattern `<([^>]+@[^>]+)>`. -/
def bracketAtRx : Rx :=
  rseq [Rx.lit '<', Rx.grp 1 (rseq [rplus false (Rx.cls true [.single '>']),
    Rx.lit '@', rplus false (Rx.cls true [.single '>'])]), Rx.lit '>']

/-- `re.split(r',\s*', s)`: the parts between comma-and-whitespace runs. -/
def splitCommaWs (s : String) : List String :=
  let ms := rxFindAll {} (rseq [Rx.lit ',', rws]) s
  let rec go (pos : Nat) : List RxMatch → List String
    | [] => [pyDrop s pos]
    | m :: rest => pySlice s pos m.ms :: go m.me rest
  go 0 ms

/-- The per-part body of the comma loop in `process_recipients` (lines
341-357): a direct `@` token is kept lowercased unless it carries one of
the two internal suffixes, otherwise the name before the first `/` is
synthesized into an internal address when it does not start with a
header keyword. -/
def processRecipientPart (part0 : String) : List String :=
  let part := pyStrip part0
  if part = "" then []
  else if pyContains part "@" && !pyEndswith part "@Enron" &&
      !pyEndswith part "@ECT" then
    [pyLower part]
  else
    let name_parts := pySplitOn part "/"
    if name_parts.length ≥ 1 then
      let name := pyStrip (name_parts.getD 0 "")
      if name ≠ "" && !pyStartswithAny (pyLower name) ["to:", "cc:"] then
        [pyReplaceChar (pyLower name) ' ' '.' ++ "@enron.com"]
      else []
    else []

/-- `process_recipients(recipient_line, recipient_list)` (helpers.py
lines 315-357); the Python function mutates `recipient_list` in place,
modelled here by returning the extended list. -/
def process_recipients (recipient_line : String) (recipient_list : List String) :
    List String :=
  if recipient_line = "" then recipient_list
  else
    let standard_emails := (rxFindAll {} bracketRx recipient_line).filterMap
      (fun m =>
        let email := pyLower (rxGroupD recipient_line m 1)
        if pyContains email "@" then some email else none)
    if standard_emails ≠ [] then recipient_list ++ standard_emails
    else
      recipient_list ++
        (splitCommaWs recipient_line).flatMap processRecipientPart

/-! ## src/email_parser/extractors/content.py -/

/-- A segment extracted by `extract_original_email`, together with the
span of the body it was drawn from (the Python function returns only the
text; every append site below draws a contiguous `body[segStart:segEnd]`
slice whose offsets the model records alongside). -/
structure Seg where
  segStart : Nat
  segEnd : Nat
  txt : String
deriving Repr, DecidableEq

/-- Line 27: `(-{5,}.*?Forwarded.*?-{5,}.*?\n)(.*?)(?=\n\s*-{5,}|\Z)`. -/
def forwardedPattern : Rx :=
  rseq [Rx.grp 1 (rseq [rmin 5 (Rx.lit '-'), lazyDots, rlit "Forwarded",
      lazyDots, rmin 5 (Rx.lit '-'), lazyDots, Rx.lit '\n']),
    Rx.grp 2 lazyDots,
    Rx.look (Rx.alt (rseq [Rx.lit '\n', rws, rmin 5 (Rx.lit '-')]) Rx.eoz)]

/-- Line 46: the `"Please respond to"` pattern. -/
def respondPattern : Rx :=
  rseq [Rx.grp 1 (rseq [Rx.lit '"', lazyDots, Rx.lit '"', rws1, Rx.lit '<',
      lazyDots, Rx.lit '>', rws1, rlit "on", rws1, rdigits 1 2, Rx.lit '/',
      rdigits 1 2, Rx.lit '/', rdigits 4 4, rws1, lazyDots, rws1,
      Rx.alt (rlit "AM") (rlit "PM"), rws, Rx.lit '\n',
      rlit "Please respond to", rws1, Rx.lit '<', lazyDots, Rx.lit '>', rws,
      Rx.lit '\n', rlit "To:", lazyDots, Rx.lit '\n',
      ropt (rseq [rlit "cc:", lazyDots, Rx.lit '\n']),
      ropt (rseq [rlit "Subject:", lazyDots, Rx.lit '\n'])]),
    Rx.grp 2 lazyDots,
    Rx.look (Rx.alt (rseq [rlit "\n\n", rmin 3 (Rx.lit '-')]) Rx.eoz)]

/-- Line 63: `([-]+ Forwarded by .*? on .*? [-]+\s*\n+)(.*?)(?=\s*\n\s*-{5,}|$)`. -/
def forwardPat1 : Rx :=
  rseq [Rx.grp 1 (rseq [rplus false (Rx.lit '-'), rlit " Forwarded by ",
      lazyDots, rlit " on ", lazyDots, rlit " ", rplus false (Rx.lit '-'),
      rws, rplus false (Rx.lit '\n')]),
    Rx.grp 2 lazyDots,
    Rx.look (Rx.alt (rseq [rws, Rx.lit '\n', rws, rmin 5 (Rx.lit '-')]) Rx.eol)]

/-- Line 66: `([-]+Original Message[-]+\s*\n+From: .*?\n)(.*?)(?=\s*\n\s*-{5,}|$)`. -/
def forwardPat2 : Rx :=
  rseq [Rx.grp 1 (rseq [rplus false (Rx.lit '-'), rlit "Original Message",
      rplus false (Rx.lit '-'), rws, rplus false (Rx.lit '\n'),
      rlit "From: ", lazyDots, Rx.lit '\n']),
    Rx.grp 2 lazyDots,
    Rx.look (Rx.alt (rseq [rws, Rx.lit '\n', rws, rmin 5 (Rx.lit '-')]) Rx.eol)]

/-- Line 69: the inline `From:`/`To:`/`Subject:` block pattern. -/
def forwardPat3 : Rx :=
  rseq [Rx.grp 1 (rseq [rlit "\n\nFrom: ", lazyDots, Rx.lit '\n',
      rlit "To: ", lazyDots, Rx.lit '\n',
      ropt (rseq [rlit "Cc: ", lazyDots, Rx.lit '\n']),
      ropt (rseq [rlit "Bcc: ", lazyDots, Rx.lit '\n']),
      rlit "Subject: ", lazyDots, Rx.lit '\n',
      ropt (rseq [rlit "Date: ", lazyDots, Rx.lit '\n'])]),
    Rx.grp 2 lazyDots,
    Rx.look (raltL [rlit "\n\nFrom: ", rseq [rlit "\n\n", rmin 3 (Rx.lit '-')],
      Rx.eol])]

/-- Line 109: the file-117 `"Please respond to"` pattern (DOTALL only). -/
def respond117Pattern : Rx :=
  rseq [Rx.grp 1 (rseq [Rx.lit '"', lazyDots, Rx.lit '"', rws1, Rx.lit '<',
      Rx.grp 2 lazyDots, Rx.lit '>', rws1, rlit "on", rws1, lazyDots, rws,
      Rx.lit '\n', rlit "Please respond to", rws1, Rx.lit '<', lazyDots,
      Rx.lit '>', rws, Rx.lit '\n', rlit "To:", rws1, Rx.lit '"', lazyDots,
      Rx.lit '"', rws1, Rx.lit '<', Rx.grp 3 lazyDots, Rx.lit '>', lazyDots,
      Rx.lit '\n', ropt (rseq [rlit "cc:", lazyDots, Rx.lit '\n']),
      ropt (rseq [rlit "Subject:", Rx.grp 4 lazyDots, Rx.lit '\n'])]),
    Rx.grp 5 lazyDots,
    Rx.look (Rx.alt (rseq [rlit "\n\n", rmin 3 (Rx.lit '-')]) Rx.eoz)]

/-- Line 123: the bare internal-stanza pattern (MULTILINE). -/
def nestedPattern : Rx :=
  rseq [rlit "\n\n",
    Rx.grp 1 (rplus false (Rx.cls false [.range 'A' 'Z', .range 'a' 'z', .space])),
    Rx.lit '\n',
    Rx.grp 2 (rseq [rdigits 2 2, Rx.lit '/', rdigits 2 2, Rx.lit '/',
      rdigits 4 4, rws1, rdigits 2 2, Rx.lit ':', rdigits 2 2, rws1,
      Rx.cls false [.single 'A', .single 'P'], Rx.lit 'M']),
    Rx.lit '\n', rlit "To: ",
    Rx.grp 3 (rplus false (Rx.cls true [.single '\n'])),
    ropt (rseq [Rx.lit '\n', rlit "cc: ",
      Rx.grp 4 (rstar false (Rx.cls true [.single '\n']))]),
    rseq [Rx.lit '\n', rlit "Subject: ",
      Rx.grp 5 (rplus false (Rx.cls true [.single '\n']))],
    rlit "\n\n"]

/-- Spans drawn by a two-group match: `group(1) + group(2)` is the
contiguous `body[group1.start : group2.end]` slice. -/
def segOfMatch12 (body : String) (m : RxMatch) : Seg :=
  let a := (capGet m.caps 1).getD (m.ms, m.ms)
  let b := (capGet m.caps 2).getD (m.me, m.me)
  ⟨a.1, b.2, rxGroupD body m 1 ++ rxGroupD body m 2⟩

def flagsMS : RxFlags := { m := true, s := true }

/-- `body.find(sub, start)` (Python `str.find` with a start index). -/
def pyFindFrom (s sub : String) (start : Nat) : Int :=
  match findSubL (s.data.drop start) sub.data with
  | some i => ((start + i : Nat) : Int)
  | none => -1

/-- The number of leading / trailing whitespace chars stripped from a
slice, to keep spans aligned with `strip()`ed segment text. -/
def stripSpan (body : String) (a b : Nat) : Nat × Nat :=
  let raw := (body.data.take b).drop a
  let lead := (raw.takeWhile (fun c => isPyWs c)).length
  let rawTail := (raw.drop lead).reverse.takeWhile (fun c => isPyWs c)
  (a + lead, b - rawTail.length)

/-- The first stage of `extract_original_email` (content.py lines
25-40): dashed `Forwarded` banner blocks via `re.finditer`. -/
def forwardedStageSegs (body : String) : List Seg :=
  (rxFindAll flagsMS forwardedPattern body).filterMap
    (fun m =>
      let seg := segOfMatch12 body m
      if seg.txt ≠ "" && pyLen seg.txt > 20 then some seg else none)

/-- `extract_original_email(body)` (content.py lines 13-143).  Returns
the forwarded-content segments in append order, each with the body span
it came from. -/
def extract_original_email (body : String) : List Seg :=
  -- lines 25-40: dashed Forwarded banner blocks
  let fe1 : List Seg := forwardedStageSegs body
  -- lines 42-56: "Please respond to" blocks
  let fe2 : List Seg :=
    if fe1 = [] then
      (rxFindAll flagsIMS respondPattern body).filterMap (fun m =>
        let seg := segOfMatch12 body m
        if seg.txt ≠ "" && pyLen seg.txt > 30 then some seg else none)
    else fe1
  -- lines 58-101: generic forward patterns, then delimiter splitting
  let fe3 : List Seg :=
    if fe2 = [] then
      let afterPats := [forwardPat1, forwardPat2, forwardPat3].foldl
        (fun acc pat =>
          (rxFindAll flagsIMS pat body).foldl (fun acc m =>
            let seg := segOfMatch12 body m
            if seg.txt ≠ "" && pyLen seg.txt > 20 &&
                acc.all (fun s => s.txt ≠ seg.txt) then
              acc ++ [seg]
            else acc) acc) []
      ["\n\n----- Forwarded", "\n\n----- Original", "\n\nFrom:"].foldl
        (fun acc delim =>
          if pyContains body delim then
            let parts := pySplitOn body delim
            (((List.range parts.length).drop 1).foldl (fun st i =>
              let (acc, pos) := st
              let partLen := pyLen (parts.getD i "")
              let segStart := pos
              let segEnd := pos + pyLen delim + partLen
              let seg : Seg := ⟨segStart, segEnd, delim ++ parts.getD i ""⟩
              ((if acc.all (fun s => Seg.txt s ≠ seg.txt) && pyLen seg.txt > 20
                then acc ++ [seg] else acc), segEnd))
              (acc, pyLen (parts.getD 0 ""))).1
          else acc) afterPats
    else fe2
  -- lines 103-118: the file-117 "Please respond to" pattern
  let fe4 : List Seg :=
    if fe3 = [] && pyContains body "Please respond to <" &&
        pyContains body "To: \"" then
      (rxFindAll { s := true } respond117Pattern body).filterMap (fun m =>
        -- the match has five groups, so the `>= 3` arity check passes
        let seg : Seg := ⟨m.ms, m.me, rxGroup0 body m⟩
        if seg.txt ≠ "" && pyLen seg.txt > 30 then some seg else none)
    else fe3
  -- lines 120-141: the bare internal-stanza pattern
  if fe4 = [] then
    (rxFindAll { m := true } nestedPattern body).filterMap (fun m =>
      let start_idx := m.ms
      let nextIdx := pyFindFrom body "\n\n" m.me
      let next_match_idx := if nextIdx < 0 then pyLen body else nextIdx.toNat
      let (a, b) := stripSpan body start_idx next_match_idx
      let nested : Seg := ⟨a, b, pyStrip (pySlice body start_idx next_match_idx)⟩
      if nested.txt ≠ "" && pyLen nested.txt > 30 then some nested else none)
  else fe4

/-! ## src/email_parser/extractors/headers.py -/

/-- Structural decidable equality for `Except`, so that theorems about
the error-modelling extractors can be settled by `decide`. -/
instance {α β : Type} [DecidableEq α] [DecidableEq β] :
    DecidableEq (Except α β) := fun a b =>
  match a, b with
  | .ok x, .ok y =>
    if h : x = y then isTrue (congrArg Except.ok h)
    else isFalse (fun hh => h (Except.ok.inj hh))
  | .error x, .error y =>
    if h : x = y then isTrue (congrArg Except.error h)
    else isFalse (fun hh => h (Except.error.inj hh))
  | .ok _, .error _ => isFalse (fun hh => Except.noConfusion hh)
  | .error _, .ok _ => isFalse (fun hh => Except.noConfusion hh)

/-- The header dictionary built by every extractor (`from` is a Lean
keyword, so the field is `from_addr` as in models.py). -/
structure Headers where
  from_addr : String := ""
  to_addrs : List String := []
  cc_addrs : List String := []
  bcc_addrs : List String := []
  subject : String := ""
  date : String := ""
  body_clean : String := ""
deriving Repr, DecidableEq

/-- The `Sent by: (.+?)(@ENRON|$)` pattern of headers.py line 87. -/
def sentByRx : Rx :=
  rseq [rlit "Sent by: ", Rx.grp 1 (rplus true Rx.dot),
    Rx.grp 2 (Rx.alt (rlit "@ENRON") Rx.eol)]

/-- `Forwarded by ([^/]+)` (line 103). -/
def forwardedByRx : Rx :=
  rseq [rlit "Forwarded by ", Rx.grp 1 (rplus false (Rx.cls true [.single '/']))]

/-- ` on (\d{2}/\d{2}/\d{4} \d{2}:\d{2}(?::\d{2})? [AP]M)` (line 110). -/
def onDateRx : Rx :=
  rseq [rlit " on ", Rx.grp 1 (rseq [rdigits 2 2, Rx.lit '/', rdigits 2 2,
    Rx.lit '/', rdigits 4 4, Rx.lit ' ', rdigits 2 2, Rx.lit ':', rdigits 2 2,
    ropt (rseq [Rx.lit ':', rdigits 2 2]), Rx.lit ' ',
    Rx.cls false [.single 'A', .single 'P'], Rx.lit 'M'])]

/-- `\d{2}/\d{2}/\d{4} \d{2}:\d{2}(?::\d{2})? [AP]M` (line 129, `re.match`). -/
def strictDateRx : Rx :=
  rseq [rdigits 2 2, Rx.lit '/', rdigits 2 2, Rx.lit '/', rdigits 4 4,
    Rx.lit ' ', rdigits 2 2, Rx.lit ':', rdigits 2 2,
    ropt (rseq [Rx.lit ':', rdigits 2 2]), Rx.lit ' ',
    Rx.cls false [.single 'A', .single 'P'], Rx.lit 'M']

/-- `\d{1,2}/\d{1,2}/\d{4}\s+\d{1,2}:\d{2}(?::\d{2})?\s*(?:AM|PM)`: the
loose Enron date pattern used across headers.py and parser.py. -/
def looseDateRx : Rx :=
  rseq [rdigits 1 2, Rx.lit '/', rdigits 1 2, Rx.lit '/', rdigits 4 4,
    rws1, rdigits 1 2, Rx.lit ':', rdigits 2 2,
    ropt (rseq [Rx.lit ':', rdigits 2 2]), rws,
    Rx.alt (rlit "AM") (rlit "PM")]

/-- `(\d{1,2}/\d{1,2}/\d{4}\s+\d{1,2}:\d{2}(?::\d{2})?\s*(?:AM|PM))` as a
single capture group, for the `re.search` call sites. -/
def looseDateGrpRx : Rx := Rx.grp 1 looseDateRx

/-- `^[A-Z][A-Z\s]+:$` (line 231, `re.match` on the stripped line). -/
def allCapsRx : Rx :=
  rseq [Rx.cls false [.range 'A' 'Z'],
    rplus false (Rx.cls false [.range 'A' 'Z', .space]), Rx.lit ':', Rx.eol]

/-- Append each `<...>` group of `line` to `lst`, skipping groups already
present; the membership test uses the raw group and the append lowers it,
exactly as lines 142-144 etc. do. -/
def bracketDedupAppend (line : String) (lst : List String) : List String :=
  (rxFindAll {} bracketRx line).foldl (fun l m =>
    let g := rxGroupD line m 1
    if l.contains g then l else l ++ [pyLower g]) lst

/-- State threaded through the second pass of
`extract_enron_style_headers`. -/
structure EnronPassState where
  h : Headers
  sent_by : Option String := none
  in_to : Bool := false
  in_cc : Bool := false
deriving Repr, DecidableEq

/-- The branch chain of the header loop (headers.py lines 81-186),
for the line at index `i`. -/
def enronHeaderLine (lines : List String) (please : Bool) (st : EnronPassState)
    (i : Nat) : EnronPassState :=
  let line := lines.getD i ""
  let line_lower := pyStrip (pyLower line)
  if pyContains line_lower "sent by:" then
    match rxSearch {} sentByRx line with
    | some m =>
      let s := pyStrip (rxGroupD line m 1)
      let s := if !pyContains s "@" then
          pyReplaceChar (pyLower s) ' ' '.' ++ "@enron.com" else s
      { st with sent_by := some s }
    | none => st
  else if (pyContains line "<" && pyContains line ">" && pyContains line " on ")
      || (pyContains line_lower "forwarded by" && pyContains line_lower " on ") then
    let st :=
      if pyContains line "<" && pyContains line ">" then
        match rxSearch {} bracketRx line with
        | some m => { st with h := { st.h with from_addr := pyLower (rxGroupD line m 1) } }
        | none => st
      else if pyContains line_lower "forwarded by" then
        match rxSearch {} forwardedByRx line with
        | some m =>
          let forwarder := pyStrip (rxGroupD line m 1)
          { st with h := { st.h with
            from_addr := pyReplaceChar (pyLower forwarder) ' ' '.' ++ "@enron.com" } }
        | none => st
      else st
    match rxSearch {} onDateRx line with
    | some m => { st with h := { st.h with date := rxGroupD line m 1 } }
    | none => st
  else if pyStartswith line_lower "please respond to" && pyContains line "<" &&
      pyContains line ">" then
    match rxSearch {} bracketRx line with
    | some m => { st with h := { st.h with from_addr := pyLower (rxGroupD line m 1) } }
    | none => st
  else if i < 5 && pyContains line "@ENRON" && st.h.from_addr = "" &&
      !pyStartswithAny line_lower ["to:", "cc:", "subject:"] then
    let possible_sender := pyStrip ((pySplitOn line "@").getD 0 "")
    let st :=
      if possible_sender ≠ "" then
        { st with h := { st.h with
          from_addr := pyReplaceChar (pyLower possible_sender) ' ' '.' ++ "@enron.com" } }
      else st
    if i + 1 < lines.length &&
        (rxMatchStart {} strictDateRx (pyStrip (lines.getD (i + 1) ""))).isSome then
      { st with h := { st.h with date := pyStrip (lines.getD (i + 1) "") } }
    else st
  else if pyStartswith line_lower "to:" then
    let to_line := pyStrip (pyDrop line 3)
    let newTo :=
      if please && pyContains to_line "\"" && pyContains to_line "<" &&
          pyContains to_line ">" then
        bracketDedupAppend to_line st.h.to_addrs
      else process_recipients to_line st.h.to_addrs
    { st with h := { st.h with to_addrs := newTo }, in_to := true, in_cc := false }
  else if pyStartswith line_lower "cc:" then
    let cc_line := pyStrip (pyDrop line 3)
    let newCc :=
      if please && pyContains cc_line "\"" && pyContains cc_line "<" &&
          pyContains cc_line ">" then
        bracketDedupAppend cc_line st.h.cc_addrs
      else process_recipients cc_line st.h.cc_addrs
    { st with h := { st.h with cc_addrs := newCc }, in_to := false, in_cc := true }
  else if (st.in_to || st.in_cc) && pyStrip line ≠ "" &&
      !pyStartswithAny line_lower ["subject:", "bcc:", "from:"] then
    if !pyStartswith (pyStrip line) "-" then
      let target := if st.in_to then st.h.to_addrs else st.h.cc_addrs
      let updated :=
        if please && pyContains line "<" && pyContains line ">" then
          bracketDedupAppend line target
        else process_recipients (pyStrip line) target
      if st.in_to then { st with h := { st.h with to_addrs := updated } }
      else { st with h := { st.h with cc_addrs := updated } }
    else st
  else if pyStartswith line_lower "subject:" then
    let h' := { st.h with subject := pyStrip (pyDrop line 8) }
    { st with h := h', in_to := false, in_cc := false }
  else st

/-- First index `i ≥ start` with `p (lines[i])`. -/
def firstIdxFrom (lines : List String) (start : Nat) (p : String → Bool) :
    Option Nat :=
  match (List.range lines.length).filter
      (fun i => start ≤ i && p (lines.getD i "")) with
  | [] => none
  | i :: _ => some i

/-- The body-start scan of headers.py lines 194-211: for each
`subject:` line in turn, the first non-blank line after the following
blank line. -/
def enronBodyStart (lines : List String) : Option Nat :=
  let rec go (i : Nat) (fuel : Nat) : Option Nat :=
    match fuel with
    | 0 => none
    | fuel + 1 =>
      match firstIdxFrom lines i
          (fun l => pyStartswith (pyStrip (pyLower l)) "subject:") with
      | none => none
      | some si =>
        match firstIdxFrom lines (si + 1) (fun l => pyStrip l = "") with
        | none => go (si + 1) fuel
        | some j =>
          match firstIdxFrom lines (j + 1) (fun l => pyStrip l ≠ "") with
          | some k => some k
          | none => go (si + 1) fuel
  go 0 (lines.length + 1)

/-- The fallback body collection of headers.py lines 217-238. -/
def enronBodyFallback (lines : List String) : List String :=
  (lines.foldl (fun st line =>
    let (past, acc) := st
    let line_lower := pyStrip (pyLower line)
    if !past then
      if pyStartswithAny line_lower ["subject:", "to:", "cc:", "bcc:", "from:",
            "sent by:", "date:", "please respond to"] ||
          pyContains line_lower "forwarded by" ||
          (pyContains line_lower "@enron" && pyLen line_lower < 40) then
        (past, acc)
      else if pyStrip line = "" ||
          (rxMatchStart {} allCapsRx (pyStrip line)).isSome then
        (true, acc)
      else (past, acc)
    else (past, acc ++ [line])) (false, ([] : List String))).2

/-- The recovery pass of headers.py lines 242-262 (runs only when no
recipient was found but a sender was). -/
def enronRecoveryPass (lines : List String) (h : Headers) : Headers :=
  lines.foldl (fun h line =>
    let line_lower := pyLower (pyStrip line)
    if (pyContains line_lower "to:" || pyStartswith line_lower "to ") &&
        pyContains line "<" && pyContains line ">" then
      { h with to_addrs := bracketDedupAppend line h.to_addrs }
    else if (pyContains line_lower "cc:" || pyStartswith line_lower "cc ") &&
        pyContains line "<" && pyContains line ">" then
      { h with cc_addrs := bracketDedupAppend line h.cc_addrs }
    else if pyContains line_lower "subject:" && h.subject = "" then
      let pos := (pyFind line_lower "subject:").toNat
      { h with subject := pyStrip (pyDrop line (pos + 8)) }
    else h) h

/-- The whole-content recipient sweep of headers.py lines 266-278. -/
def enronPotentialPass (lines : List String) (h : Headers) : Headers :=
  let potential := lines.foldl (fun acc line =>
    if pyContains line "<" && pyContains line ">" && pyContains line "@" then
      (rxFindAll {} bracketAtRx line).foldl (fun acc m =>
        let email := pyLower (rxGroupD line m 1)
        if email ≠ h.from_addr && !acc.contains email then acc ++ [email]
        else acc) acc
    else acc) ([] : List String)
  { h with to_addrs := potential.foldl (fun t e =>
      if !t.contains e then t ++ [e] else t) h.to_addrs }

/-- `extract_enron_style_headers(content)` (headers.py lines 24-280). -/
def extract_enron_style_headers (content : String) : Headers :=
  let lines := pySplitOn content "\n"
  let please := lines.any
    (fun l => pyStartswith (pyStrip (pyLower l)) "please respond to")
  let st := (List.range lines.length).foldl (enronHeaderLine lines please)
    { h := {} }
  let h := st.h
  let h := match st.sent_by with
    | some s => if s ≠ "" && pyStrip s ≠ "" then { h with from_addr := s } else h
    | none => h
  let h :=
    match enronBodyStart lines with
    | some bodyStart =>
      if bodyStart > 0 then
        { h with body_clean := pyStrip (pyJoin "\n" (lines.drop bodyStart)) }
      else h
    | none =>
      let nh := enronBodyFallback lines
      if nh ≠ [] then { h with body_clean := pyStrip (pyJoin "\n" nh) } else h
  let h := if h.to_addrs = [] && h.from_addr ≠ "" then enronRecoveryPass lines h else h
  let h := if h.to_addrs = [] && h.from_addr ≠ "" && h.subject ≠ "" then
      enronPotentialPass lines h
    else h
  h

/-! ### `extract_nested_email_headers` (headers.py lines 283-602)

The Python function can raise `UnboundLocalError`: the local `body_start`
is first assigned either inside the early-return block (lines 433-441,
which always returns) or inside the `if not headers['from'] or not
headers['date']` block (line 517), yet it is read unconditionally at
line 599.  The model therefore returns `Except String Headers`, with the
unassigned-local read producing an error value. -/

/-- `(\w+)\s*\n\s*(\w+)` with replacement `\1 \2` (line 411). -/
def wordJoinRx : Rx :=
  rseq [Rx.grp 1 (rplus false rword), rws, Rx.lit '\n', rws,
    Rx.grp 2 (rplus false rword)]

def wordJoinTmpl : List SubPiece := [.ref 1, .lit " ", .ref 2]

/-- `^\s*([A-Za-z][\w\s]+?)\s*\n\s*(<loose date>)\s*\n` (lines 451, 640),
searched under MULTILINE. -/
def nameDateRx : Rx :=
  rseq [Rx.bol, rws,
    Rx.grp 1 (rseq [Rx.cls false [.range 'A' 'Z', .range 'a' 'z'],
      rplus true (Rx.cls false [.word, .space])]),
    rws, Rx.lit '\n', rws, Rx.grp 2 looseDateRx, rws, Rx.lit '\n']

/-- The scan for name / date / `To:` line indices in the first ten lines
(lines 319-332); the loop breaks as soon as the `To:` line is found. -/
def nestedScanIdx (lines : List String) : Option Nat × Option Nat × Option Nat :=
  let rec go (i bound : Nat) (n d : Option Nat) :
      Option Nat × Option Nat × Option Nat :=
    match bound with
    | 0 => (n, d, none)
    | bound + 1 =>
      let line := pyStrip (lines.getD i "")
      if n = none && line ≠ "" &&
          !pyStartswithAny line ["-", "From:", "To:", "cc:", "Subject:"] then
        go (i + 1) bound (some i) d
      else if n ≠ none && d = none &&
          (rxMatchStart {} looseDateRx line).isSome then
        go (i + 1) bound n (some i)
      else if d ≠ none && pyStartswith (pyLower line) "to:" then
        (n, d, some i)
      else go (i + 1) bound n d
  go 0 (min 10 lines.length) none none

/-- The recipient-token processing shared by the nested-header paths
(headers.py lines 387-401 etc.): `@`-tokens are kept lowercased, other
tokens synthesize an internal address from the name before the first
slash unless it starts with the excluded keyword. -/
def nestedRecipientToken (part0 : String) : List String :=
  let part := pyStrip part0
  if part = "" then []
  else if pyContains part "@" then [pyLower part]
  else
    let name_parts := pySplitOn part "/"
    if name_parts.length ≥ 1 then
      let name := pyStrip (name_parts.getD 0 "")
      if name ≠ "" && !pyStartswithAny (pyLower name) ["to:", "cc:"] then
        [pyReplaceChar (pyLower name) ' ' '.' ++ "@enron.com"]
      else []
    else []

/-- The looser token processing of the fallback paths (headers.py lines
467-481, 536-551): no emptiness check on the part or name, plain-comma
split upstream, a single excluded keyword, and tokens whose extracted
name still contains `@` are dropped. -/
def nestedRecipientTokenLoose (excluded : String) (part : String) : List String :=
  if pyContains part "@" then [pyLower (pyStrip part)]
  else
    let name_parts := pySplitOn part "/"
    if name_parts.length ≥ 1 then
      let name := pyStrip (name_parts.getD 0 "")
      if !pyContains name "@" && !pyStartswith (pyLower name) excluded then
        [pyReplaceChar (pyLower name) ' ' '.' ++ "@enron.com"]
      else []
    else []

/-- The header accumulation loop of headers.py lines 347-380, from the
`To:` line onward: `to_lines` / `cc_lines` continuation collection that
stops at the `Subject:` line. -/
def nestedCollect (lines : List String) (toIdx : Nat) :
    List String × List String × String :=
  let rec go (i bound : Nat) (inTo inCc : Bool)
      (toLines ccLines : List String) (subj : String) :
      List String × List String × String :=
    match bound with
    | 0 => (toLines, ccLines, subj)
    | bound + 1 =>
      if i ≥ lines.length then (toLines, ccLines, subj)
      else
        let line := pyStrip (lines.getD i "")
        if line = "" then go (i + 1) bound inTo inCc toLines ccLines subj
        else if pyStartswith (pyLower line) "to:" then
          go (i + 1) bound true false (toLines ++ [pyStrip (pyDrop line 3)])
            ccLines subj
        else if pyStartswith (pyLower line) "cc:" then
          go (i + 1) bound false true toLines
            (ccLines ++ [pyStrip (pyDrop line 3)]) subj
        else if pyStartswith (pyLower line) "subject:" then
          (toLines, ccLines, pyStrip (pyDrop line 8))
        else if inTo then
          go (i + 1) bound inTo inCc (toLines ++ [line]) ccLines subj
        else if inCc then
          go (i + 1) bound inTo inCc toLines (ccLines ++ [line]) subj
        else go (i + 1) bound inTo inCc toLines ccLines subj
  go toIdx (lines.length + 1) false false [] [] ""

/-- The body-start scan of headers.py lines 432-441 (also parser.py lines
300-308): after the first `Subject:` line, the index following the first
blank line that is immediately followed by a non-blank line. -/
def subjectBlankBodyStart (lines : List String) : Option Nat :=
  match firstIdxFrom lines 0
      (fun l => pyStartswith (pyLower (pyStrip l)) "subject:") with
  | none => none
  | some i =>
    match firstIdxFrom lines (i + 1) (fun l => pyStrip l = "") with
    | none => none
    | some _ =>
      -- scan the blank lines after `i` for one whose successor is non-blank
      match (List.range lines.length).filter (fun j =>
          i + 1 ≤ j && pyStrip (lines.getD j "") = "" && j + 1 < lines.length &&
          pyStrip (lines.getD (j + 1) "") ≠ "") with
      | [] => none
      | j :: _ => some (j + 1)

/-- Block 314-446 of `extract_nested_email_headers`: either an early
return (`some h`), or the fall-through with whatever header mutations the
block already made. -/
def nestedBlockA (content : String) (h0 : Headers) : Headers ⊕ Headers :=
  let lines := pySplitOn content "\n"
  if lines.length ≥ 5 then
    match nestedScanIdx lines with
    | (some nameIdx, some dateIdx, some toIdx) =>
      let name := pyStrip (lines.getD nameIdx "")
      let fromA :=
        if name ≠ "" && !pyContains name "@" then
          pyReplaceChar (pyLower name) ' ' '.' ++ "@enron.com"
        else name
      let h := { h0 with
        from_addr := fromA
        date := pyStrip (lines.getD dateIdx "") }
      let (toLines, ccLines, subj) := nestedCollect lines toIdx
      let h := { h with subject := subj }
      let h :=
        if toLines ≠ [] then
          let to_text := pyJoin " " toLines
          { h with to_addrs := h.to_addrs ++
            (splitCommaWs to_text).flatMap nestedRecipientToken }
        else h
      let h :=
        if ccLines ≠ [] then
          let cc_text := rxSub {} wordJoinRx wordJoinTmpl (pyJoin " " ccLines)
          { h with cc_addrs := h.cc_addrs ++
            (splitCommaWs cc_text).flatMap nestedRecipientToken }
        else h
      if h.from_addr ≠ "" && h.date ≠ "" && (h.to_addrs ≠ [] || h.subject ≠ "") then
        let lines := pySplitOn content "\n"
        let h :=
          match subjectBlankBodyStart lines with
          | some bs => { h with body_clean := pyStrip (pyJoin "\n" (lines.drop bs)) }
          | none => h
        Sum.inl h
      else Sum.inr h
    | _ => Sum.inr h0
  else Sum.inr h0

/-- The `To:` / `cc:` / `Subject:` line sweep of headers.py lines 461-505
(shared shape with lines 523-589): `To:` and `cc:` REPLACE the recipient
lists (plain-comma split, loose token processing). -/
def nestedHeaderSweepLine (h : Headers) (line : String) : Headers :=
  let stripped := pyStrip line
  if pyStartswith (pyLower stripped) "to:" then
    let email_parts := pySplitOn (pyStrip (pyDrop stripped 3)) ","
    { h with to_addrs := email_parts.flatMap (nestedRecipientTokenLoose "to:") }
  else if pyStartswith (pyLower stripped) "cc:" then
    if pyLen stripped > 3 then
      let email_parts := pySplitOn (pyStrip (pyDrop stripped 3)) ","
      { h with cc_addrs := email_parts.flatMap (nestedRecipientTokenLoose "cc:") }
    else h
  else if pyStartswith (pyLower stripped) "subject:" then
    { h with subject := pyStrip (pyDrop stripped 8) }
  else h

/-- State of the line-by-line fallback block (headers.py lines 508-589). -/
structure NestedBlockCState where
  h : Headers
  name_line : Option Nat := none
  subject_line : Option Nat := none
  body_start : Int := -1
  stop : Bool := false
deriving Repr, DecidableEq

/-- One iteration of the loop at headers.py lines 523-589. -/
def nestedBlockCLine (lines : List String) (st : NestedBlockCState) (i : Nat) :
    NestedBlockCState :=
  if st.stop then st
  else
    let stripped := pyStrip (lines.getD i "")
    match st.name_line with
    | some nl =>
      if i = nl + 1 && (rxMatchStart {} looseDateRx stripped).isSome then
        { st with h := { st.h with date := stripped } }
      else if pyStartswith (pyLower stripped) "to:" then
        let email_parts := pySplitOn (pyStrip (pyDrop stripped 3)) ","
        { st with h := { st.h with
          to_addrs := email_parts.flatMap (nestedRecipientTokenLoose "to:") } }
      else if pyStartswith (pyLower stripped) "cc:" then
        if pyLen stripped > 3 then
          let email_parts := pySplitOn (pyStrip (pyDrop stripped 3)) ","
          { st with h := { st.h with
            cc_addrs := email_parts.flatMap (nestedRecipientTokenLoose "cc:") } }
        else st
      else if pyStartswith (pyLower stripped) "subject:" then
        { st with
            h := { st.h with subject := pyStrip (pyDrop stripped 8) }
            subject_line := some i }
      else if st.subject_line ≠ none && stripped = "" && i < lines.length - 1 &&
          pyStrip (lines.getD (i + 1) "") ≠ "" then
        { st with body_start := (i + 1 : Nat), stop := true }
      else st
    | none =>
      if i > 0 && pyStrip (lines.getD (i - 1) "") = "" && stripped ≠ "" &&
          !pyStartswith stripped "-" then
        if i < lines.length - 1 &&
            (rxMatchStart {} looseDateRx (pyStrip (lines.getD (i + 1) ""))).isSome then
          { st with
            name_line := some i
            h := { st.h with
              from_addr := pyReplaceChar (pyLower stripped) ' ' '.' ++ "@enron.com" } }
        else st
      else st

/-- `extract_nested_email_headers(content)` (headers.py lines 283-602).
`Except.error` models the `UnboundLocalError` raised at line 599 when
`body_start` is read without having been assigned. -/
def extract_nested_email_headers (content : String) : Except String Headers :=
  match nestedBlockA content {} with
  | Sum.inl h => Except.ok h
  | Sum.inr h =>
    -- lines 450-505: the direct name/date pattern
    let lines := pySplitOn content "\n"
    let h :=
      match rxSearch { m := true } nameDateRx content with
      | some m =>
        let name := rxGroupD content m 1
        let date := rxGroupD content m 2
        let h := { h with
          from_addr := pyReplaceChar (pyLower (pyStrip name)) ' ' '.' ++ "@enron.com",
          date := pyStrip date }
        lines.foldl nestedHeaderSweepLine h
      | none => h
    -- lines 508-589: the line-by-line approach, which assigns body_start
    let (h, body_start) :=
      if h.from_addr = "" || h.date = "" then
        let st := (List.range lines.length).foldl (nestedBlockCLine lines)
          { h := h }
        (st.h, some st.body_start)
      else (h, none)
    -- lines 592-596: last-resort date search
    let h :=
      if h.date = "" then
        match rxSearch {} looseDateGrpRx content with
        | some m => { h with date := pyStrip (rxGroupD content m 1) }
        | none => h
      else h
    -- line 599: `if body_start > 0:` reads a possibly-unassigned local
    match body_start with
    | none => Except.error "UnboundLocalError: body_start"
    | some bs =>
      if bs > 0 then
        Except.ok { h with
          body_clean := pyStrip (pyJoin "\n" (lines.drop bs.toNat)) }
      else Except.ok h

/-! ### `extract_forwarded_headers` (headers.py lines 605-754) -/

/-- The detection pattern of line 622:
`\n\w+\s+\w+\n\d{1,2}/\d{1,2}/\d{4}\s+\d{1,2}:\d{2}\s+[AP]M\n`. -/
def simpleNestedDetectRx : Rx :=
  rseq [Rx.lit '\n', rplus false rword, rws1, rplus false rword, Rx.lit '\n',
    rdigits 1 2, Rx.lit '/', rdigits 1 2, Rx.lit '/', rdigits 4 4, rws1,
    rdigits 1 2, Rx.lit ':', rdigits 2 2, rws1,
    Rx.cls false [.single 'A', .single 'P'], Rx.lit 'M', Rx.lit '\n']

/-- The joined-header-block pattern of line 729 (IGNORECASE | DOTALL). -/
def headerBlockRx : Rx :=
  rseq [Rx.grp 1 (rseq [rlit "From:", lazyDots,
      Rx.grp 2 (Rx.alt (rlit "\n") (rlit "\r\n"))]),
    Rx.grp 3 (rseq [rlit "To:", lazyDots,
      Rx.grp 4 (Rx.alt (rlit "\n") (rlit "\r\n"))]),
    ropt (ropt (rseq [rlit "Cc:", lazyDots,
      Rx.grp 5 (Rx.alt (rlit "\n") (rlit "\r\n"))])),
    ropt (ropt (rseq [rlit "Bcc:", lazyDots,
      Rx.grp 6 (Rx.alt (rlit "\n") (rlit "\r\n"))])),
    ropt (rseq [rlit "Subject:", lazyDots,
      Rx.grp 7 (Rx.alt (rlit "\n") (rlit "\r\n"))]),
    ropt (rseq [rlit "Date:", lazyDots,
      Rx.grp 8 (Rx.alt (rlit "\n") (rlit "\r\n"))])]

/-- The recipient-token processing of headers.py lines 658-678: tokens
with `@` pass lowercased, tokens with `/` synthesize from the name before
the slash, anything else is dropped. -/
def forwardedRecipientToken (part : String) : List String :=
  if pyContains part "@" then [pyLower (pyStrip part)]
  else if pyContains part "/" then
    let name_parts := pySplitOn part "/"
    if name_parts.length ≥ 1 then
      [pyReplaceChar (pyLower (pyStrip (name_parts.getD 0 ""))) ' ' '.' ++
        "@enron.com"]
    else []
  else []

/-- The `To:` / `cc:` / `Subject:` sweep of headers.py lines 652-681. -/
def forwardedSweepLine (h : Headers) (line : String) : Headers :=
  if pyStartswith (pyLower (pyStrip line)) "to:" then
    let to_text := pyStrip (pyDrop line 3)
    if to_text ≠ "" then
      { h with to_addrs := h.to_addrs ++
        (splitCommaWs to_text).flatMap forwardedRecipientToken }
    else h
  else if pyStartswith (pyLower (pyStrip line)) "cc:" then
    let cc_text := pyStrip (pyDrop line 3)
    if cc_text ≠ "" then
      { h with cc_addrs := h.cc_addrs ++
        (splitCommaWs cc_text).flatMap forwardedRecipientToken }
    else h
  else if pyStartswith (pyLower (pyStrip line)) "subject:" then
    { h with subject := pyStrip (pyDrop line 8) }
  else h

/-- The per-header last-position fallback of headers.py lines 736-747:
the furthest `re.search` end over `From:`, `To:`, `Cc:`, `Bcc:`,
`Subject:`, `Date:` patterns `{header}\s*(.*?)(?:\n|$)`. -/
def lastHeaderPos (content : String) : Int :=
  ["From:", "To:", "Cc:", "Bcc:", "Subject:", "Date:"].foldl
    (fun last header =>
      let pat := rseq [rlit header, rws, Rx.grp 1 lazyDots,
        Rx.alt (Rx.lit '\n') Rx.eol]
      match rxSearch { i := true } pat content with
      | some m => if (m.me : Int) > last then (m.me : Int) else last
      | none => last) (-1)

/-- `extract_forwarded_headers(content)` (headers.py lines 605-754).
Propagates the modelled `UnboundLocalError` of
`extract_nested_email_headers` when the nested branch takes it. -/
def extract_forwarded_headers (content : String) : Except String Headers :=
  -- line 618: Enron-specific format detection
  if pyContains content "---------------------- Forwarded by" ||
      (pyContains content "\"" && pyContains content "<" &&
        pyContains content ">" && pyContains content " on ") then
    Except.ok (extract_enron_style_headers content)
  else
    -- lines 622-626: the simpler nested format
    let viaNested :=
      if (rxSearch { m := true } simpleNestedDetectRx content).isSome then
        match extract_nested_email_headers content with
        | Except.error e => some (Except.error e)
        | Except.ok h =>
          if h.date ≠ "" && (h.from_addr ≠ "" || h.to_addrs ≠ [] || h.subject ≠ "")
          then some (Except.ok h) else none
      else none
    match viaNested with
    | some r => r
    | none =>
      -- lines 629-701: the name/date pattern with its own sweep
      let h : Headers := {}
      let h :=
        match rxSearch { m := true } nameDateRx content with
        | some m =>
          let name := rxGroupD content m 1
          let date := rxGroupD content m 2
          let fromA :=
            if name ≠ "" && !pyContains (pyStrip name) "@" then
              pyReplaceChar (pyLower (pyStrip name)) ' ' '.' ++ "@enron.com"
            else pyStrip name
          let lines := pySplitOn content "\n"
          lines.foldl forwardedSweepLine
            { h with from_addr := fromA, date := pyStrip date }
        | none => h
      if h.from_addr ≠ "" && h.date ≠ "" then
        -- lines 684-701: body after the Subject line, skipping blanks
        let lines := pySplitOn content "\n"
        let body_start :=
          match firstIdxFrom lines 0
              (fun l => pyStartswith (pyLower (pyStrip l)) "subject:") with
          | some i => i + 1
          | none => 0
        let h :=
          if body_start > 0 && body_start < lines.length then
            match firstIdxFrom lines body_start (fun l => pyStrip l ≠ "") with
            | some k =>
              { h with body_clean := pyStrip (pyJoin "\n" (lines.drop k)) }
            | none => h
          else h
        Except.ok h
      else
        -- lines 703-754: generic labeled-header extraction
        let h := { h with from_addr := extract_header_from_text content "From" }
        let to_str := extract_header_from_text content "To"
        let h := { h with to_addrs :=
          if to_str ≠ "" then normalize_addresses to_str else [] }
        let cc_str := extract_header_from_text content "Cc"
        let h := { h with cc_addrs :=
          if cc_str ≠ "" then normalize_addresses cc_str else [] }
        let bcc_str := extract_header_from_text content "Bcc"
        let h := { h with bcc_addrs :=
          if bcc_str ≠ "" then normalize_addresses bcc_str else [] }
        let h := { h with subject := extract_header_from_text content "Subject" }
        let h := { h with date := extract_header_from_text content "Date" }
        let h :=
          if h.date = "" then
            match rxSearch {} looseDateGrpRx content with
            | some m => { h with date := rxGroupD content m 1 }
            | none => h
          else h
        let body :=
          match rxSearch { i := true, s := true } headerBlockRx content with
          | some m => pyStrip (pyDrop content m.me)
          | none =>
            let last_pos := lastHeaderPos content
            if last_pos > 0 then pyStrip (pyDrop content last_pos.toNat) else ""
        let body := if body = "" && content ≠ "" then clean_body content else body
        Except.ok { h with body_clean := body }

/-! ## `extract_forwarded_full_body` (content.py lines 146-227) -/

def sectionMarkers : List String :=
  ["STRUCTURE:", "INTRODUCTION:", "SUMMARY:", "BACKGROUND:", "OVERVIEW:",
   "ANALYSIS:", "REPORT:", "DETAILS:"]

def endMarkers : List String :=
  [" - winmail.dat", "\n\n-----Original Message", "\n\n-----Forwarded",
   "\n------ End of Forwarded Message"]

def headerishKeywords : List String := ["from:", "to:", "cc:", "subject:", "date:"]

/-- `extract_forwarded_full_body(content, file_path)` (content.py lines
146-227); `file_path` is unused by the body of the Python function. -/
def extract_forwarded_full_body (content : String) : String :=
  match sectionMarkers.find? (fun mk => pyContains content mk) with
  | some marker =>
    let start_idx := (pyFind content marker).toNat
    let end_idx := endMarkers.foldl (fun (e : Nat) mk =>
      let pos := pyFindFrom content mk start_idx
      if pos ≠ -1 && pos < (e : Int) then pos.toNat else e) (pyLen content)
    pyStrip (pySlice content start_idx end_idx)
  | none =>
    let lines := pySplitOn content "\n"
    -- lines 197-214: first non-blank non-header line after a blank line
    -- that follows header-looking lines
    let scan := (List.range lines.length).foldl (fun st i =>
      let (inHeaders, found) := st
      match found with
      | some _ => st
      | none =>
        let line := lines.getD i ""
        let line_lower := pyStrip (pyLower line)
        if pyStartswithAny line_lower headerishKeywords ||
            (pyContains line "\"" && pyContains line "<" && pyContains line ">" &&
              pyContains line " on ") then
          (true, none)
        else if inHeaders && line_lower = "" then
          if i + 1 < lines.length && pyStrip (lines.getD (i + 1) "") ≠ "" &&
              !pyStartswithAny (pyStrip (pyLower (lines.getD (i + 1) "")))
                headerishKeywords then
            (inHeaders, some (i + 1))
          else (inHeaders, none)
        else (inHeaders, none)) (false, none)
    match scan.2 with
    | some bodyStart => pyStrip (pyJoin "\n" (lines.drop bodyStart))
    | none =>
      -- lines 221-224: skip three lines after a "forwarded by" line
      match (List.range lines.length).filter (fun i =>
          pyContains (pyLower (lines.getD i "")) "forwarded by" &&
          i + 3 < lines.length) with
      | i :: _ => pyStrip (pyJoin "\n" (lines.drop (i + 3)))
      | [] => clean_body content

/-! ## src/email_parser/parser.py -/

/-- The record dictionary built by `_extract_nested_email` and friends. -/
structure NestedData where
  id : String
  date : Option String
  subject : String
  from_addr : String
  to_addrs : List String
  cc_addrs : List String
  bcc_addrs : List String
  body_clean : String
  file_source : String
deriving Repr, DecidableEq

/-- Reading a Python local that may be unassigned: `none` raises
`UnboundLocalError`. -/
def readVar (v : Option α) (nm : String) : Except String α :=
  match v with
  | some x => Except.ok x
  | none => Except.error ("UnboundLocalError: " ++ nm)

/-- `To:\s+"[^"]+"\s+<([^>]+)>` (parser.py line 472). -/
def toQuotedRx : Rx :=
  rseq [rlit "To:", rws1, Rx.lit '"',
    rplus false (Rx.cls true [.single '"']), Rx.lit '"', rws1, Rx.lit '<',
    Rx.grp 1 (rplus false (Rx.cls true [.single '>'])), Rx.lit '>']

/-- `cc:\s+(.*?)(?=\n\w+:|Subject:|$)` (line 480, DOTALL | IGNORECASE). -/
def ccSectionRx : Rx :=
  rseq [rlit "cc:", rws, Rx.grp 1 lazyDots,
    Rx.look (raltL [rseq [Rx.lit '\n', rplus false rword, Rx.lit ':'],
      rlit "Subject:", Rx.eol])]

/-- `"([^"]+)"` (line 487). -/
def quotedNameRx : Rx :=
  rseq [Rx.lit '"', Rx.grp 1 (rplus false (Rx.cls true [.single '"'])),
    Rx.lit '"']

/-- `"{name}"\s*<([^>]+)>` with the name escaped (line 492). -/
def nameEmailRx (name : String) : Rx :=
  rseq [Rx.lit '"', rlit name, Rx.lit '"', rws, Rx.lit '<',
    Rx.grp 1 (rplus false (Rx.cls true [.single '>'])), Rx.lit '>']

/-- `cc:\s+"([^"]+)"` (line 520). -/
def ccLineQuotedRx : Rx :=
  rseq [rlit "cc:", rws1, Rx.lit '"',
    Rx.grp 1 (rplus false (Rx.cls true [.single '"'])), Rx.lit '"']

/-- `"[^"]+"\s+<([^>]+)>\s+on` (line 528). -/
def fromOnRx : Rx :=
  rseq [Rx.lit '"', rplus false (Rx.cls true [.single '"']), Rx.lit '"', rws1,
    Rx.lit '<', Rx.grp 1 (rplus false (Rx.cls true [.single '>'])), Rx.lit '>',
    rws1, rlit "on"]

/-- `_handle_please_respond_format` (parser.py lines 457-541); mutates the
`to` / `cc` lists of the header dictionary. -/
def handlePleaseRespondFormat (fc : String) (h : Headers) : Headers :=
  let h :=
    match rxSearch {} toQuotedRx fc with
    | some m => { h with to_addrs := [pyLower (rxGroupD fc m 1)] }
    | none => h
  let ccSection := rxSearch { i := true, s := true } ccSectionRx fc
  let cc_emails :=
    match ccSection with
    | some secM =>
      let sec := rxGroupD fc secM 1
      let quoted := (rxFindAll {} quotedNameRx sec).map (fun m => rxGroupD sec m 1)
      quoted.flatMap (fun name =>
        match rxSearch {} (nameEmailRx name) fc with
        | some m => [pyLower (rxGroupD fc m 1)]
        | none =>
          let name_pos := pyFind fc ("\"" ++ name ++ "\"")
          if name_pos ≠ -1 then
            let subsequent := pySlice fc name_pos.toNat (name_pos.toNat + 200)
            match rxSearch {} bracketAtRx subsequent with
            | some m => [pyLower (rxGroupD subsequent m 1)]
            | none => []
          else [])
    | none => []
  let h := if cc_emails ≠ [] then { h with cc_addrs := cc_emails } else h
  let h :=
    if cc_emails = [] then
      match ccSection with
      | some secM =>
        let sec := rxGroupD fc secM 1
        let ems := (rxFindAll {} bracketAtRx sec).map
          (fun m => pyLower (rxGroupD sec m 1))
        if ems ≠ [] then { h with cc_addrs := ems } else h
      | none => h
    else h
  if h.cc_addrs = [] then
    match rxSearch {} ccLineQuotedRx fc with
    | some _ =>
      let all_emails := (rxFindAll {} bracketAtRx fc).map
        (fun m => rxGroupD fc m 1)
      let excluded :=
        (match rxSearch {} fromOnRx fc with
         | some m => [pyLower (rxGroupD fc m 1)]
         | none => []) ++
        (match rxSearch {} toQuotedRx fc with
         | some m => [pyLower (rxGroupD fc m 1)]
         | none => [])
      let ccs := (all_emails.map pyLower).filter
        (fun e => !excluded.contains e)
      if ccs ≠ [] then { h with cc_addrs := ccs } else h
    | none => h
  else h

/-- `_create_nested_email_dict` (parser.py lines 543-575). -/
def createNestedEmailDict (content : String) (h : Headers)
    (file_id : String) (idx : Nat) (parent_subject : String) : NestedData :=
  let nested_id := generate_id content (some file_id) (some idx)
  let parsed_date := if h.date ≠ "" then extract_date h.date else none
  let body_clean := if h.body_clean ≠ "" then h.body_clean else clean_body content
  { id := nested_id
    date := parsed_date
    subject := if h.subject ≠ "" then h.subject else parent_subject
    from_addr := h.from_addr
    to_addrs := h.to_addrs
    cc_addrs := h.cc_addrs
    bcc_addrs := h.bcc_addrs
    body_clean := body_clean
    file_source := file_id ++ "-nested-" ++ toString idx }

/-- `_get_nested_body_content` (parser.py lines 577-601); `readFile`
models the filesystem, with `none` for the `open` failure the Python
code catches. -/
def getNestedBodyContent (readFile : String → Option String) (h : Headers)
    (content file_path : String) : String :=
  match readFile file_path with
  | some raw_content =>
    if h.from_addr ≠ "" && pyContains raw_content h.from_addr then
      extract_forwarded_full_body raw_content
    else if h.body_clean ≠ "" then h.body_clean else clean_body content
  | none =>
    if h.body_clean ≠ "" then h.body_clean else clean_body content

/-- `_extract_email_fields` applied to the pseudo message
`"From: Unknown\nTo: Unknown\nSubject: Unknown\nDate: Unknown\n\n" +
content` built by `_extract_nested_email_fallback` (parser.py lines
603-637): the standard-library message parse yields the four `Unknown`
headers and `content` itself as the payload. -/
def nestedFallback (content file_id : String) (idx : Nat)
    (parent_subject : String) : NestedData :=
  let date := extract_date "Unknown"
  let from_addrs := normalize_addresses "Unknown"
  let from_addr := from_addrs.getD 0 ""
  let to_addrs := normalize_addresses "Unknown"
  let body_clean := clean_body content
  let nested_id := generate_id content (some file_id) (some idx)
  { id := nested_id
    date := date
    subject := if "Unknown" ≠ "" then "Unknown" else parent_subject
    from_addr := from_addr
    to_addrs := to_addrs
    cc_addrs := normalize_addresses ""
    bcc_addrs := normalize_addresses ""
    body_clean := if body_clean ≠ "" then body_clean
      else clean_body content
    file_source := file_id ++ "-nested-" ++ toString idx }

/-- The `%m/%d/%Y %I:%M %p` and `%m/%d/%Y %H:%M` formats used directly
at parser.py lines 353 and 361. -/
def fmtIMp : List Dir :=
  [.dm, .lit '/', .dd, .lit '/', .dY, .ws, .dI, .lit ':', .dM, .ws, .dp]

def fmtHM : List Dir :=
  [.dm, .lit '/', .dd, .lit '/', .dY, .ws, .dH, .lit ':', .dM]

/-- The inline date-parsing block of parser.py lines 340-378: returns the
(possibly rebuilt) `date_string` and the parsed value; the inner
`except` swallows index and parse errors, leaving `parsed_date = None`. -/
def directDateBlock (date_string0 : String) : String × Option String :=
  let step : Except Unit (String × Option PyDT) := do
    if pyContains date_string0 "AM" || pyContains date_string0 "PM" then
      let tokens := pySplitWs date_string0
      -- `date_string.split()[1]` raises IndexError when absent
      let tok1 ←
        if tokens.length ≥ 2 then pure (tokens.getD 1 "") else throw ()
      let ds ←
        if pyContains ((pySplitWs tok1).getD 0 "") ":" then do
          let time_parts := pySplitOn tok1 ":"
          if time_parts.length > 2 then
            if tokens.length ≥ 3 then
              pure (tokens.getD 0 "" ++ " " ++ time_parts.getD 0 "" ++ ":" ++
                time_parts.getD 1 "" ++ " " ++ tokens.getD 2 "")
            else throw ()
          else pure date_string0
        else pure date_string0
      pure (ds, strptime fmtIMp ds)
    else
      pure (date_string0, strptime fmtHM date_string0)
  match step with
  | Except.error _ => (date_string0, none)
  | Except.ok (ds, none) => (ds, none)
  | Except.ok (ds, some dt) => (ds, some (isoformat (centralToUtc dt)))

/-- The specific-format block of `_extract_nested_email` (parser.py lines
214-338).  `Sum.inl` is the early return with a record; `Sum.inr` carries
the binding state of the local `parsed_date` after falling through.
Errors are the `UnboundLocalError` reads of `full_cc_text` (line 280) and
`subject` (line 327) when line 232's binding block did not run. -/
def nestedBlockP (fc file_id : String) (idx : Nat) (parent_subject : String) :
    Except String (NestedData ⊕ Option (Option String)) := do
  let lines := pySplitOn fc "\n"
  if lines.length ≥ 5 then
    let name_line := pyStrip (lines.getD 0 "")
    let date_line := if lines.length > 1 then pyStrip (lines.getD 1 "") else ""
    let to_line := if lines.length > 2 then pyStrip (lines.getD 2 "") else ""
    if name_line ≠ "" && (rxMatchStart {} looseDateRx date_line).isSome &&
        pyStartswith (pyLower to_line) "to:" then
      let sender := pyReplaceChar (pyLower name_line) ' ' '.' ++ "@enron.com"
      let date_str := date_line
      -- lines 232-276: recipient / subject accumulation, binding
      -- `subject` and `full_cc_text` only when the `To:` line has content
      let bound : Option (List String × String × String) :=
        if pyLen to_line > 3 then
          let to_text := pyStrip (pyDrop to_line 3)
          let st := (List.range lines.length).foldl (fun st i =>
            let (cur, full_to, full_cc, subj, stop) := st
            if stop || i < 3 then st
            else
              let line := pyStrip (lines.getD i "")
              if pyStartswith (pyLower line) "cc:" then
                ("cc", full_to,
                  (if pyLen line > 3 then pyStrip (pyDrop line 3) else full_cc),
                  subj, false)
              else if pyStartswith (pyLower line) "subject:" then
                ("subject", full_to, full_cc,
                  (if pyLen line > 8 then pyStrip (pyDrop line 8) else subj),
                  true)
              else if cur = "to" &&
                  !pyStartswithAny (pyLower line) ["cc:", "subject:", "from:"] then
                (cur, full_to ++ " " ++ line, full_cc, subj, false)
              else if cur = "cc" &&
                  !pyStartswithAny (pyLower line) ["subject:", "from:"] then
                (cur, full_to, full_cc ++ " " ++ line, subj, false)
              else st) ("to", to_text, "", "", false)
            let (_, full_to, full_cc, subj, _) := st
            let full_to := rxSub {} wordJoinRx wordJoinTmpl full_to
            let to_recipients := (splitCommaWs full_to).flatMap (fun part0 =>
              let part := pyStrip part0
              if part = "" then []
              else if pyContains part "@" then [pyLower part]
              else
                let name_parts := pySplitOn part "/"
                if name_parts.length ≥ 1 then
                  let name := pyStrip (name_parts.getD 0 "")
                  if name ≠ "" && !pyStartswith (pyLower name) "to:" then
                    [pyReplaceChar (pyLower name) ' ' '.' ++ "@enron.com"]
                  else []
                else [])
            some (to_recipients, full_cc, subj)
        else none
      let to_recipients := match bound with
        | some (t, _, _) => t
        | none => []
      -- line 280: `if full_cc_text:` reads the possibly-unbound local
      let full_cc_text ← readVar (bound.map (fun b => b.2.1)) "full_cc_text"
      let cc_recipients :=
        if full_cc_text ≠ "" then
          let cc_text := rxSub {} wordJoinRx wordJoinTmpl full_cc_text
          (splitCommaWs cc_text).flatMap (fun part0 =>
            let part := pyStrip part0
            if part = "" then []
            else if pyContains part "@" then [pyLower part]
            else
              let name_parts := pySplitOn part "/"
              if name_parts.length ≥ 1 then
                let name := pyStrip (name_parts.getD 0 "")
                if name ≠ "" && !pyStartswith (pyLower name) "cc:" then
                  [pyReplaceChar (pyLower name) ' ' '.' ++ "@enron.com"]
                else []
              else [])
        else []
      let body_start := subjectBlankBodyStart lines
      let body_content := match body_start with
        | some bs => pyJoin "\n" (lines.drop bs)
        | none => ""
      let parsed_date := extract_date date_str
      -- line 327 reads the possibly-unbound local `subject`
      let subject ← readVar (bound.map (fun b => b.2.2)) "subject"
      let nd : NestedData :=
        { id := generate_id fc (some file_id) (some idx)
          date := parsed_date
          subject := if subject ≠ "" then subject else parent_subject
          from_addr := sender
          to_addrs := to_recipients
          cc_addrs := cc_recipients
          bcc_addrs := []
          body_clean := body_content
          file_source := file_id ++ "-nested-" ++ toString idx }
      if nd.from_addr ≠ "" && (nd.to_addrs ≠ [] || nd.subject ≠ "") then
        return Sum.inl nd
      else
        return Sum.inr (some parsed_date)
    else
      return Sum.inr none
  else
    return Sum.inr none

/-- The `try:` body of `_extract_nested_email` (parser.py lines 212-442).
The result is `none` exactly at the `return None` of line 455;
`Except.error` models an exception reaching the `except` of line 444. -/
def nestedTryBody (readFile : String → Option String) (fc file_id : String)
    (idx : Nat) (parent_subject : String) :
    Except String (Option NestedData) := do
  match ← nestedBlockP fc file_id idx parent_subject with
  | Sum.inl nd => return some nd
  | Sum.inr pdv0 =>
    -- lines 340-378: direct Enron-format date extraction
    let (pdv, dsv) :=
      match rxSearch {} looseDateGrpRx fc with
      | some m =>
        let ds0 := rxGroupD fc m 1
        let (ds, pd) := directDateBlock ds0
        (some pd, some ds)
      | none => (pdv0, (none : Option String))
    let nested_headers := extract_enron_style_headers fc
    let nested_headers :=
      if pyContains fc "Please respond to <" && pyContains fc "To: \"" then
        handlePleaseRespondFormat fc nested_headers
      else nested_headers
    -- line 388 reads `parsed_date`, line 389 reads `date_string`
    let pd ← readVar pdv "parsed_date"
    let nested_headers ←
      if pd.isSome && nested_headers.date = "" then do
        let ds ← readVar dsv "date_string"
        pure { nested_headers with date := ds }
      else pure nested_headers
    if nested_headers.from_addr ≠ "" || nested_headers.to_addrs ≠ [] ||
        nested_headers.subject ≠ "" then
      let nd := createNestedEmailDict fc nested_headers file_id idx parent_subject
      let nd := if pd.isSome && nd.date = none then { nd with date := pd } else nd
      return some nd
    else
      -- lines 409-442: the standard approach
      match extract_forwarded_headers fc with
      | Except.error e => throw e
      | Except.ok fwd_fields =>
        let body_clean := getNestedBodyContent readFile fwd_fields fc file_id
        let nested_id := generate_id fc (some file_id) (some idx)
        let parsed_date :=
          if fwd_fields.date ≠ "" then extract_date fwd_fields.date else pd
        let nd : NestedData :=
          { id := nested_id
            date := parsed_date
            subject := if fwd_fields.subject ≠ "" then fwd_fields.subject
              else parent_subject
            from_addr := extract_email_address fwd_fields.from_addr
            to_addrs := fwd_fields.to_addrs
            cc_addrs := fwd_fields.cc_addrs
            bcc_addrs := fwd_fields.bcc_addrs
            body_clean := body_clean
            file_source := file_id ++ "-nested-" ++ toString idx }
        if (nd.body_clean ≠ "" && pyLen nd.body_clean > 10) ||
            nd.from_addr ≠ "" || nd.to_addrs ≠ [] then
          return some nd
        else
          return none

/-- `EmailParser._extract_nested_email` (parser.py lines 199-455): any
exception in the try body falls back to the pseudo-record of
`_extract_nested_email_fallback`; completing without usable fields
returns `None`. -/
def extractNestedEmail (readFile : String → Option String) (fc file_id : String)
    (idx : Nat) (parent_subject : String) : Option NestedData :=
  match nestedTryBody readFile fc file_id idx parent_subject with
  | Except.ok r => r
  | Except.error _ => some (nestedFallback fc file_id idx parent_subject)

/-! ## Thread id generation (parser.py lines 639-661 and models.py
lines 65-84, identical logic) -/

/-- `^(?:re|fwd|fw|forward):\s*` under IGNORECASE (line 654). -/
def replyTagRx : Rx :=
  rseq [Rx.bol, raltL [rlit "re", rlit "fwd", rlit "fw", rlit "forward"],
    Rx.lit ':', rws]

/-- The cleaned subject: `re.sub(r'^(?:re|fwd|fw|forward):\s*', '',
subject.strip().lower(), flags=re.IGNORECASE)`. -/
def cleanSubject (subject : String) : String :=
  rxSub { i := true } replyTagRx [] (pyLower (pyStrip subject))

/-- `sorted(set(filter(None, [row['from']] + (row['to'] or []))))`:
the distinct non-empty participants in Python string order. -/
def participantsOf (from_addr : String) (to_addrs : List String) : List String :=
  List.insertionSort (· ≤ ·)
    (((from_addr :: to_addrs).filter (fun a => a ≠ "")).dedup)

/-- The thread key `clean_subject + '|' + '|'.join(participants)`. -/
def threadKey (subject from_addr : String) (to_addrs : List String) : String :=
  cleanSubject subject ++ "|" ++ pyJoin "|" (participantsOf from_addr to_addrs)

/-- `EmailParser._generate_thread_id` /
`EmailData.generate_thread_id`: `uuid5(NAMESPACE_DNS, thread_key)`. -/
def generate_thread_id (subject from_addr : String) (to_addrs : List String) :
    String :=
  uuid5Dns (threadKey subject from_addr to_addrs)

/-- Bounds on newly recorded capture entries: every group span lies
between the enclosing positions. -/
abbrev capsBounded (pos p' : Nat) (new : Caps) : Prop :=
  ∀ e ∈ new, pos ≤ e.2.1 ∧ e.2.1 ≤ e.2.2 ∧ e.2.2 ≤ p'

/-! ## Matcher facts

The backtracking matcher only moves forward: a successful match hands
its continuation a position at or beyond the starting position, and
every capture recorded on the way lies between the two.  These facts
drive the non-overlap theorem for `re.finditer`. -/

theorem rxm_inv (fl : RxFlags) :
    ∀ (fuel : Nat) (r : Rx) (pos : Nat) (prev : Option Char) (rest : List Char)
      (caps : Caps) (k : RxCont) (out : Nat × Caps),
      rxm fl fuel r pos prev rest caps k = some out →
      ∃ p' pv' rs' new, pos ≤ p' ∧ capsBounded pos p' new ∧
        k p' pv' rs' (new ++ caps) = some out := by
  intro fuel
  induction fuel with
  | zero => intro r pos prev rest caps k out h; simp [rxm] at h
  | succ fuel ih =>
    intro r pos prev rest caps k out h
    cases r with
    | eps =>
      exact ⟨pos, prev, rest, [], Nat.le_refl _, (by intro e he; cases he), h⟩
    | lit c =>
      simp only [rxm] at h
      cases rest with
      | nil => cases h
      | cons x rs =>
        by_cases hc : charEq fl c x
        · simp [hc] at h
          exact ⟨pos + 1, some x, rs, [], Nat.le_succ _,
            (by intro e he; cases he), h⟩
        · simp [hc] at h
    | dot =>
      simp only [rxm] at h
      cases rest with
      | nil => cases h
      | cons x rs =>
        by_cases hc : x = '\n' && !fl.s
        · simp [hc] at h
        · simp [hc] at h
          exact ⟨pos + 1, some x, rs, [], Nat.le_succ _,
            (by intro e he; cases he), h⟩
    | cls neg items =>
      simp only [rxm] at h
      cases rest with
      | nil => cases h
      | cons x rs =>
        by_cases hc : clsMatch fl neg items x
        · simp [hc] at h
          exact ⟨pos + 1, some x, rs, [], Nat.le_succ _,
            (by intro e he; cases he), h⟩
        · simp [hc] at h
    | seq a b =>
      simp only [rxm] at h
      obtain ⟨p1, pv1, rs1, new1, hle1, hb1, hk1⟩ := ih a _ _ _ _ _ _ h
      obtain ⟨p2, pv2, rs2, new2, hle2, hb2, hk2⟩ := ih b _ _ _ _ _ _ hk1
      refine ⟨p2, pv2, rs2, new2 ++ new1, Nat.le_trans hle1 hle2, ?_, ?_⟩
      · intro e he
        rcases List.mem_append.mp he with h2 | h1
        · obtain ⟨x1, x2, x3⟩ := hb2 e h2
          exact ⟨Nat.le_trans hle1 x1, x2, x3⟩
        · obtain ⟨x1, x2, x3⟩ := hb1 e h1
          exact ⟨x1, x2, Nat.le_trans x3 hle2⟩
      · rw [List.append_assoc]; exact hk2
    | alt a b =>
      simp only [rxm] at h
      cases ha : rxm fl fuel a pos prev rest caps k with
      | some res => rw [ha] at h; cases h; exact ih a _ _ _ _ _ _ ha
      | none => rw [ha] at h; exact ih b _ _ _ _ _ _ h
    | grp i r' =>
      simp only [rxm] at h
      obtain ⟨p1, pv1, rs1, new1, hle1, hb1, hk1⟩ := ih r' _ _ _ _ _ _ h
      refine ⟨p1, pv1, rs1, (i, pos, p1) :: new1, hle1, ?_, hk1⟩
      intro e he
      rcases List.mem_cons.mp he with rfl | h1
      · exact ⟨Nat.le_refl _, hle1, Nat.le_refl _⟩
      · exact hb1 e h1
    | look r' =>
      simp only [rxm] at h
      cases hl : rxm fl fuel r' pos prev rest caps fun p _ _ cp => some (p, cp) with
      | some res =>
        rw [hl] at h
        exact ⟨pos, prev, rest, [], Nat.le_refl _, (by intro e he; cases he), h⟩
      | none => rw [hl] at h; cases h
    | bol =>
      simp only [rxm] at h
      split at h
      · exact ⟨pos, prev, rest, [], Nat.le_refl _, (by intro e he; cases he), h⟩
      · cases h
    | eol =>
      simp only [rxm] at h
      split at h
      · exact ⟨pos, prev, rest, [], Nat.le_refl _, (by intro e he; cases he), h⟩
      · cases h
    | eoz =>
      simp only [rxm] at h
      split at h
      · exact ⟨pos, prev, rest, [], Nat.le_refl _, (by intro e he; cases he), h⟩
      · cases h
    | rep r' lo hi lazy =>
      simp only [rxm] at h
      cases lo with
      | succ lo' =>
        obtain ⟨p1, pv1, rs1, new1, hle1, hb1, hk1⟩ := ih r' _ _ _ _ _ _ h
        obtain ⟨p2, pv2, rs2, new2, hle2, hb2, hk2⟩ := ih _ _ _ _ _ _ _ hk1
        refine ⟨p2, pv2, rs2, new2 ++ new1, Nat.le_trans hle1 hle2, ?_, ?_⟩
        · intro e he
          rcases List.mem_append.mp he with h2 | h1
          · obtain ⟨x1, x2, x3⟩ := hb2 e h2
            exact ⟨Nat.le_trans hle1 x1, x2, x3⟩
          · obtain ⟨x1, x2, x3⟩ := hb1 e h1
            exact ⟨x1, x2, Nat.le_trans x3 hle2⟩
        · rw [List.append_assoc]; exact hk2
      | zero =>
        have main :
            (if lazy then
              match k pos prev rest caps with
              | some res => some res
              | none =>
                rxm fl fuel r' pos prev rest caps (fun p pv rs cp =>
                  if p = pos then none
                  else rxm fl fuel (.rep r' 0 (hi.map (· - 1)) lazy) p pv rs cp k)
             else
              match rxm fl fuel r' pos prev rest caps (fun p pv rs cp =>
                  if p = pos then none
                  else rxm fl fuel (.rep r' 0 (hi.map (· - 1)) lazy) p pv rs cp k) with
              | some res => some res
              | none => k pos prev rest caps) = some out →
            ∃ p' pv' rs' new, pos ≤ p' ∧ capsBounded pos p' new ∧
              k p' pv' rs' (new ++ caps) = some out := by
          intro hmain
          have stepcase :
              rxm fl fuel r' pos prev rest caps (fun p pv rs cp =>
                if p = pos then none
                else rxm fl fuel (.rep r' 0 (hi.map (· - 1)) lazy) p pv rs cp k) =
                some out →
              ∃ p' pv' rs' new, pos ≤ p' ∧ capsBounded pos p' new ∧
                k p' pv' rs' (new ++ caps) = some out := by
            intro hstep
            obtain ⟨p1, pv1, rs1, new1, hle1, hb1, hk1⟩ := ih r' _ _ _ _ _ _ hstep
            by_cases hp : p1 = pos
            · rw [if_pos hp] at hk1; cases hk1
            · rw [if_neg hp] at hk1
              obtain ⟨p2, pv2, rs2, new2, hle2, hb2, hk2⟩ := ih _ _ _ _ _ _ _ hk1
              refine ⟨p2, pv2, rs2, new2 ++ new1, Nat.le_trans hle1 hle2, ?_, ?_⟩
              · intro e he
                rcases List.mem_append.mp he with h2 | h1
                · obtain ⟨x1, x2, x3⟩ := hb2 e h2
                  exact ⟨Nat.le_trans hle1 x1, x2, x3⟩
                · obtain ⟨x1, x2, x3⟩ := hb1 e h1
                  exact ⟨x1, x2, Nat.le_trans x3 hle2⟩
              · rw [List.append_assoc]; exact hk2
          by_cases hlz : lazy
          · rw [if_pos hlz] at hmain
            cases hk : k pos prev rest caps with
            | some res =>
              rw [hk] at hmain; cases hmain
              exact ⟨pos, prev, rest, [], Nat.le_refl _,
                (by intro e he; cases he), hk⟩
            | none => rw [hk] at hmain; exact stepcase hmain
          · rw [if_neg hlz] at hmain
            cases hs : rxm fl fuel r' pos prev rest caps (fun p pv rs cp =>
                if p = pos then none
                else rxm fl fuel (.rep r' 0 (hi.map (· - 1)) lazy) p pv rs cp k) with
            | some res => rw [hs] at hmain; cases hmain; exact stepcase hs
            | none =>
              rw [hs] at hmain
              exact ⟨pos, prev, rest, [], Nat.le_refl _,
                (by intro e he; cases he), hmain⟩
        cases hi with
        | none => exact main h
        | some n =>
          cases n with
          | zero =>
            exact ⟨pos, prev, rest, [], Nat.le_refl _,
              (by intro e he; cases he), h⟩
          | succ n' => exact main h

theorem rxMatchAt_inv (fl : RxFlags) (r : Rx) (full : List Char) (pos : Nat)
    (m : RxMatch) (h : rxMatchAt fl r full pos = some m) :
    m.ms = pos ∧ pos ≤ m.me ∧ capsBounded m.ms m.me m.caps := by
  simp only [rxMatchAt] at h
  cases hr : rxm fl rxFuel r pos (stateAt full pos).1 (stateAt full pos).2 []
      (fun p _ _ cp => some (p, cp)) with
  | none => rw [hr] at h; cases h
  | some ec =>
    rw [hr] at h
    cases h
    obtain ⟨p', pv', rs', new, hle, hb, hk⟩ := rxm_inv fl _ _ _ _ _ _ _ _ hr
    simp only [List.append_nil] at hk
    cases hk
    exact ⟨rfl, hle, hb⟩

theorem rxSearchGo_inv (fl : RxFlags) (r : Rx) (full : List Char) :
    ∀ (gas pos : Nat) (m : RxMatch),
      rxSearchGo fl r full pos gas = some m →
      pos ≤ m.ms ∧ m.ms ≤ m.me ∧ capsBounded m.ms m.me m.caps := by
  intro gas
  induction gas with
  | zero => intro pos m h; simp [rxSearchGo] at h
  | succ gas ih =>
    intro pos m h
    simp only [rxSearchGo] at h
    split at h
    · cases h
    · cases hm : rxMatchAt fl r full pos with
      | some m' =>
        rw [hm] at h; cases h
        obtain ⟨h1, h2, h3⟩ := rxMatchAt_inv fl r full pos m hm
        exact ⟨Nat.le_of_eq h1.symm, h1 ▸ h2, h3⟩
      | none =>
        rw [hm] at h
        obtain ⟨h1, h2, h3⟩ := ih (pos + 1) m h
        exact ⟨Nat.le_trans (Nat.le_succ _) h1, h2, h3⟩

theorem rxSearchFrom_inv (fl : RxFlags) (r : Rx) (full : List Char)
    (pos : Nat) (m : RxMatch) (h : rxSearchFrom fl r full pos = some m) :
    pos ≤ m.ms ∧ m.ms ≤ m.me ∧ capsBounded m.ms m.me m.caps :=
  rxSearchGo_inv fl r full _ pos m h

theorem rxFindAllGo_inv (fl : RxFlags) (r : Rx) (full : List Char) :
    ∀ (gas pos : Nat),
      (∀ m ∈ rxFindAllGo fl r full pos gas,
        pos ≤ m.ms ∧ m.ms ≤ m.me ∧ capsBounded m.ms m.me m.caps) ∧
      (rxFindAllGo fl r full pos gas).Pairwise (fun a b => a.me ≤ b.ms) := by
  intro gas
  induction gas with
  | zero => intro pos; simp [rxFindAllGo]
  | succ gas ih =>
    intro pos
    simp only [rxFindAllGo]
    split
    · simp
    · cases hs : rxSearchFrom fl r full pos with
      | none => simp
      | some m =>
        obtain ⟨hms, hmm, hcb⟩ := rxSearchFrom_inv fl r full pos m hs
        have hpos' : m.me ≤ (if m.me ≤ m.ms then m.ms + 1 else m.me) := by
          split <;> omega
        obtain ⟨ihAll, ihPw⟩ := ih (if m.me ≤ m.ms then m.ms + 1 else m.me)
        constructor
        · intro x hx
          rcases List.mem_cons.mp hx with rfl | hx'
          · exact ⟨hms, hmm, hcb⟩
          · obtain ⟨x1, x2, x3⟩ := ihAll x hx'
            refine ⟨?_, x2, x3⟩
            have : pos ≤ m.me := Nat.le_trans hms hmm
            omega
        · refine List.Pairwise.cons ?_ ihPw
          intro b hb
          exact Nat.le_trans hpos' (ihAll b hb).1

theorem rxFindAll_inv (fl : RxFlags) (r : Rx) (s : String) :
    (∀ m ∈ rxFindAll fl r s, m.ms ≤ m.me ∧ capsBounded m.ms m.me m.caps) ∧
    (rxFindAll fl r s).Pairwise (fun a b => a.me ≤ b.ms) := by
  obtain ⟨hAll, hPw⟩ := rxFindAllGo_inv fl r s.data (s.data.length + 2) 0
  exact ⟨fun m hm => ⟨(hAll m hm).2.1, (hAll m hm).2.2⟩, hPw⟩

theorem segOfMatch12_bounds (body : String) (m : RxMatch)
    (hmm : m.ms ≤ m.me) (hcb : capsBounded m.ms m.me m.caps) :
    m.ms ≤ (segOfMatch12 body m).segStart ∧
    (segOfMatch12 body m).segStart ≤ m.me ∧
    m.ms ≤ (segOfMatch12 body m).segEnd ∧
    (segOfMatch12 body m).segEnd ≤ m.me := by
  simp only [segOfMatch12]
  constructor
  · cases hc : capGet m.caps 1 with
    | none => simp [hc]
    | some ab =>
      simp only [hc, Option.getD_some]
      simp only [capGet] at hc
      cases hf : m.caps.find? (fun e => e.1 = 1) with
      | none => rw [hf] at hc; cases hc
      | some e =>
        rw [hf] at hc
        cases hc
        exact (hcb e (List.mem_of_find?_eq_some hf)).1
  constructor
  · cases hc : capGet m.caps 1 with
    | none => simp [hc, hmm]
    | some ab =>
      simp only [hc, Option.getD_some]
      simp only [capGet] at hc
      cases hf : m.caps.find? (fun e => e.1 = 1) with
      | none => rw [hf] at hc; cases hc
      | some e =>
        rw [hf] at hc
        cases hc
        obtain ⟨b1, b2, b3⟩ := hcb e (List.mem_of_find?_eq_some hf)
        exact Nat.le_trans b2 b3
  constructor
  · cases hc : capGet m.caps 2 with
    | none => simp [hc, hmm]
    | some ab =>
      simp only [hc, Option.getD_some]
      simp only [capGet] at hc
      cases hf : m.caps.find? (fun e => e.1 = 2) with
      | none => rw [hf] at hc; cases hc
      | some e =>
        rw [hf] at hc
        cases hc
        obtain ⟨b1, b2, b3⟩ := hcb e (List.mem_of_find?_eq_some hf)
        exact Nat.le_trans b1 b2
  · cases hc : capGet m.caps 2 with
    | none => simp [hc]
    | some ab =>
      simp only [hc, Option.getD_some]
      simp only [capGet] at hc
      cases hf : m.caps.find? (fun e => e.1 = 2) with
      | none => rw [hf] at hc; cases hc
      | some e =>
        rw [hf] at hc
        cases hc
        exact (hcb e (List.mem_of_find?_eq_some hf)).2.2

theorem mem_if_some {α : Type} {c : Prop} [Decidable c] {v x : α}
    (h : x ∈ (if c then some v else none)) : x = v := by
  split at h
  · exact (Option.some.inj (Option.mem_def.mp h)).symm
  · cases h

/-! ## Claims -/

/-- C1 (counterexample): the claim that the segments returned by
`extract_original_email` always correspond to pairwise non-overlapping
spans ordered by start offset is false.  On a body whose only hits are
the two delimiter substrings `"\n\n----- Forwarded"` and
`"\n\n----- Original"`, the delimiter-splitting fallback (content.py
lines 87-101) first emits the span 23-46 and then the enclosing span
1-46: the list is not ordered by start offset and the two spans
intersect. -/
theorem C1_counterexample :
    extract_original_email "h\n\n----- Original aaaaa\n\n----- Forwarded ccccc" =
      [⟨23, 46, "\n\n----- Forwarded ccccc"⟩,
       ⟨1, 46, "\n\n----- Original aaaaa\n\n----- Forwarded ccccc"⟩] ∧
    ¬ (extract_original_email
        "h\n\n----- Original aaaaa\n\n----- Forwarded ccccc").Pairwise
        (fun a b => a.segStart ≤ b.segStart) ∧
    ¬ (extract_original_email
        "h\n\n----- Original aaaaa\n\n----- Forwarded ccccc").Pairwise
        (fun a b => a.segEnd ≤ b.segStart ∨ b.segEnd ≤ a.segStart) := by
  refine ⟨by decide, ?_, ?_⟩ <;> · intro hpw; revert hpw; decide

/-- C1 (amended): segments produced by the primary dashed-`Forwarded`
banner family of the Boundary Detector do correspond to pairwise
non-overlapping spans ordered by start offset (adjacent segments may
abut), and whenever that family matches at all, `extract_original_email`
returns exactly those segments; the later fallback families — in
particular the delimiter-splitting branch — may emit overlapping,
out-of-order segments, as the counterexample shows. -/
theorem C1_boundary_family_ordered (body : String) :
    (forwardedStageSegs body).Pairwise
      (fun a b => a.segEnd ≤ b.segStart ∧ a.segStart ≤ b.segStart) ∧
    (forwardedStageSegs body ≠ [] →
      extract_original_email body = forwardedStageSegs body) := by
  constructor
  · obtain ⟨hAll, hPw⟩ := rxFindAll_inv flagsMS forwardedPattern body
    unfold forwardedStageSegs
    have hPw' : (rxFindAll flagsMS forwardedPattern body).Pairwise
        (fun a b => a.me ≤ b.ms ∧
          (a.ms ≤ a.me ∧ capsBounded a.ms a.me a.caps) ∧
          (b.ms ≤ b.me ∧ capsBounded b.ms b.me b.caps)) :=
      hPw.imp_of_mem (fun ha hb hr => ⟨hr, hAll _ ha, hAll _ hb⟩)
    refine List.Pairwise.filterMap _ ?_ hPw'
    rintro a b ⟨hle, ⟨hma, hca⟩, ⟨hmb, hcb⟩⟩ x hx y hy
    have hxa : x = segOfMatch12 body a := mem_if_some hx
    have hyb : y = segOfMatch12 body b := mem_if_some hy
    subst hxa
    subst hyb
    obtain ⟨a1, a2, a3, a4⟩ := segOfMatch12_bounds body a hma hca
    obtain ⟨b1, b2, b3, b4⟩ := segOfMatch12_bounds body b hmb hcb
    exact ⟨Nat.le_trans a4 (Nat.le_trans hle b1),
      Nat.le_trans a2 (Nat.le_trans hle b1)⟩
  · intro h
    simp [extract_original_email, h]

/-- C1 witness: `C1_boundary_family_ordered` applied to a body where
the dashed-`Forwarded` banner family fires. -/
theorem C1_witness :
    forwardedStageSegs "----- Forwarded -----\nAAAAAAAAAAAAAAAAAAAAAAAA" ≠ [] ∧
    extract_original_email "----- Forwarded -----\nAAAAAAAAAAAAAAAAAAAAAAAA" =
      forwardedStageSegs "----- Forwarded -----\nAAAAAAAAAAAAAAAAAAAAAAAA" ∧
    (forwardedStageSegs
        "----- Forwarded -----\nAAAAAAAAAAAAAAAAAAAAAAAA").Pairwise
      (fun a b => a.segEnd ≤ b.segStart ∧ a.segStart ≤ b.segStart) :=
  ⟨by decide,
    (C1_boundary_family_ordered
      "----- Forwarded -----\nAAAAAAAAAAAAAAAAAAAAAAAA").2 (by decide),
    (C1_boundary_family_ordered
      "----- Forwarded -----\nAAAAAAAAAAAAAAAAAAAAAAAA").1⟩

/-- C2 (code bug): `extract_nested_email_headers` can raise rather than
return a best-effort `HeaderFields`.  On a well-formed stanza whose
`Subject:` follows the name/date pair with no `To:` line, the scan of
headers.py lines 319-332 misses the `To:` index, the name/date regex of
line 452 then fills `from`/`date`, the guarded block of line 508 is
skipped, and line 599 reads the never-assigned local `body_start`,
raising `UnboundLocalError`. -/
theorem C2_nested_extractor_unbound_local :
    extract_nested_email_headers
      "John Smith\n01/02/2003 04:05 PM\nSubject: Hello\n\nBody text here\nmore\n" =
      Except.error "UnboundLocalError: body_start" := by
  decide

/-- C3 (counterexample): a segment that passed the Boundary Detector's
minimum length threshold can yield no record at all.  The 44-character
body below is returned whole as the single segment by the dashed-banner
family; `_extract_nested_email` then completes without an exception —
the date regex binds `parsed_date` at parser.py line 345 — but every
extractor leaves sender, recipients and cleaned body empty, so the
condition of line 441 fails and line 455 returns `None`. -/
theorem C3_counterexample :
    extract_original_email "-----\nForwarded-----\n01/02/2003 04:05 PM zzz" =
      [⟨0, 44, "-----\nForwarded-----\n01/02/2003 04:05 PM zzz"⟩] ∧
    pyLen "-----\nForwarded-----\n01/02/2003 04:05 PM zzz" > 20 ∧
    extractNestedEmail (fun _ => none)
      "-----\nForwarded-----\n01/02/2003 04:05 PM zzz" "file1" 0 "Parent" =
      none := by
  refine ⟨by decide, by decide, by decide⟩

/-- C3 (amended): the pseudo-record fallback fires only when extraction
raises.  When the specific-format block falls through without binding
`parsed_date` and the segment contains no Enron-format date, line 388's
read of `parsed_date` raises `UnboundLocalError`, the `except` of line
444 catches it, and the pseudo-record of
`_extract_nested_email_fallback` — with its `Unknown` sender — is
returned; a segment on which extraction instead completes without usable
fields yields no record at all, as the counterexample shows. -/
theorem C3_fallback_on_exception (rf : String → Option String)
    (fc fid psubj : String) (idx : Nat)
    (h1 : nestedBlockP fc fid idx psubj = Except.ok (Sum.inr none))
    (h2 : rxSearch {} looseDateGrpRx fc = none) :
    extractNestedEmail rf fc fid idx psubj =
      some (nestedFallback fc fid idx psubj) := by
  unfold extractNestedEmail nestedTryBody
  rw [h1]
  simp [h2, readVar, Except.bind, bind]

/-- C3 (witness): the amended theorem applied to a concrete dateless
segment; the result is the fallback pseudo-record. -/
theorem C3_witness :
    nestedBlockP "-----\nForwarded-----\nzzzzz" "file1" 0 "Parent" =
      Except.ok (Sum.inr none) ∧
    rxSearch {} looseDateGrpRx "-----\nForwarded-----\nzzzzz" = none ∧
    extractNestedEmail (fun _ => none) "-----\nForwarded-----\nzzzzz"
      "file1" 0 "Parent" =
      some (nestedFallback "-----\nForwarded-----\nzzzzz" "file1" 0 "Parent") :=
  ⟨by decide, by decide,
    C3_fallback_on_exception (fun _ => none) "-----\nForwarded-----\nzzzzz"
      "file1" "Parent" 0 (by decide) (by decide)⟩

/-- C4: the Date Normalizer is a total function into `Option`: on the
empty string, and whenever the anchored Enron fast path, every entry of
the format list and the regex fallback all fail, `extract_date` returns
`none` — it has no clock input, so it cannot substitute the current
time, and the model raises nothing. -/
theorem C4_date_absent_on_total_failure :
    extract_date "" = none ∧
    ∀ s, enronSpecialBranch s = none →
      (dateFormatLoop s dateFormats).2 = none →
      dateRegexFallback (dateFormatLoop s dateFormats).1 = none →
      extract_date s = none := by
  refine ⟨rfl, ?_⟩
  intro s h1 h2 h3
  unfold extract_date
  by_cases hs : s = ""
  · simp [hs]
  · rw [if_neg hs, h1]
    cases hl : dateFormatLoop s dateFormats with
    | mk hd r =>
      rw [hl] at h2 h3
      simp only at h2
      subst h2
      simpa using h3

/-- C4 (witness): a string none of the parsing stages accept maps to
`none`. -/
theorem C4_witness :
    enronSpecialBranch "next Tuesday" = none ∧
    (dateFormatLoop "next Tuesday" dateFormats).2 = none ∧
    dateRegexFallback (dateFormatLoop "next Tuesday" dateFormats).1 = none ∧
    extract_date "next Tuesday" = none :=
  ⟨by decide, by decide, by decide,
    C4_date_absent_on_total_failure.2 "next Tuesday" (by decide) (by decide)
      (by decide)⟩

/-- C5 (counterexample): equivalent explicit-offset forms do not map to
the same result.  `"+0000"` parses through `%z`, but the `"GMT"` name is
not accepted by any format in the list (Python's `%z` only accepts
numeric offsets and `Z`) and the regex fallback needs an
`MM/DD/YYYY`-shaped date, so the GMT form returns `none`. -/
theorem C5_counterexample :
    extract_date "Mon, 01 Jan 2001 12:00:00 +0000" =
      some "2001-01-01T12:00:00+00:00" ∧
    extract_date "Mon, 01 Jan 2001 12:00:00 GMT" = none ∧
    extract_date "Mon, 01 Jan 2001 12:00:00 +0000" ≠
      extract_date "Mon, 01 Jan 2001 12:00:00 GMT" := by
  refine ⟨by decide, by decide, by decide⟩

/-- C5 (amended): dates with an explicit numeric UTC offset parse and
are rendered at that offset (not re-expressed, so two spellings of the
same instant keep their own offsets); the `"GMT"`-named form fails every
parser and yields absent; and any input accepted by the anchored Enron
fast path — a naive timestamp — is localized to US/Central and converted
to UTC by `enronGroupsToIso`. -/
theorem C5_offset_and_naive_dates :
    (∀ s iso, s ≠ "" → enronSpecialBranch s = some iso →
      extract_date s = some iso) ∧
    extract_date "Mon, 01 Jan 2001 12:00:00 +0000" =
      some "2001-01-01T12:00:00+00:00" ∧
    extract_date "01 Jan 2001 13:00:00 +0100" =
      some "2001-01-01T13:00:00+01:00" ∧
    extract_date "Mon, 01 Jan 2001 12:00:00 GMT" = none := by
  refine ⟨?_, by decide, by decide, by decide⟩
  intro s iso hs h
  unfold extract_date
  rw [if_neg hs, h]

/-- C5 (witness): the naive-date part of the amended theorem applied to
a concrete winter timestamp: 4:05 PM US/Central is 22:05 UTC. -/
theorem C5_witness :
    enronSpecialBranch "01/02/2003 04:05 PM" =
      some "2003-01-02T22:05:00+00:00" ∧
    extract_date "01/02/2003 04:05 PM" = some "2003-01-02T22:05:00+00:00" :=
  ⟨by decide,
    C5_offset_and_naive_dates.1 "01/02/2003 04:05 PM"
      "2003-01-02T22:05:00+00:00" (by decide) (by decide)⟩

/-- C6 (code bug): `normalize_addresses` does not deduplicate, contrary
to its own docstring ("remove duplicates", helpers.py line 82) and to
the claim: the same address appearing twice in a header is returned
twice. -/
theorem C6_duplicates_preserved :
    normalize_addresses "a@b.com, a@b.com" = ["a@b.com", "a@b.com"] ∧
    ¬ (normalize_addresses "a@b.com, a@b.com").Nodup := by
  refine ⟨by decide, by decide⟩

/-- C7 (counterexample): the token `"Accounting/NY/Corp@Tag"` is not
normalized to `"accounting@enron.com"`.  Because it contains `@` and
ends in neither `"@Enron"` nor `"@ECT"`, `process_recipients` takes the
direct branch (helpers.py line 347) and stores the whole token
lowercased. -/
theorem C7_counterexample :
    process_recipients "Accounting/NY/Corp@Tag" [] =
      ["accounting/ny/corp@tag"] ∧
    process_recipients "Accounting/NY/Corp@Tag" [] ≠
      ["accounting@enron.com"] := by
  refine ⟨by decide, by decide⟩

/-- C7 (amended): the bracketed token extracts its address; slash
notation synthesizes `name@enron.com` only when the token ends in one of
the two recognized internal suffixes (`@Enron` / `@ECT`) or contains no
`@` at all; a slash token with any other `@`-suffix, such as `"@Tag"`,
is stored verbatim lowercased. -/
theorem C7_recipient_tokens :
    process_recipients "<jdoe@example.com>" [] = ["jdoe@example.com"] ∧
    process_recipients "Accounting/NY/Corp@Enron" [] =
      ["accounting@enron.com"] ∧
    process_recipients "Accounting/NY/Corp" [] = ["accounting@enron.com"] ∧
    process_recipients "Accounting/NY/Corp@Tag" [] =
      ["accounting/ny/corp@tag"] := by
  refine ⟨by decide, by decide, by decide, by decide⟩

/-- Sorting a participant list is invariant under permutation of the
recipients: the filtered-deduplicated-sorted output of `participantsOf`
depends only on the multiset of recipients. -/
theorem participantsOf_perm (f : String) {t1 t2 : List String}
    (h : t1.Perm t2) : participantsOf f t1 = participantsOf f t2 := by
  unfold participantsOf
  have hp : ((f :: t1).filter (fun a => a ≠ "")).dedup.Perm
      ((f :: t2).filter (fun a => a ≠ "")).dedup :=
    ((h.cons f).filter _).dedup
  exact List.eq_of_perm_of_sorted
    ((List.perm_insertionSort _ _).trans
      (hp.trans (List.perm_insertionSort _ _).symm))
    (List.sorted_insertionSort _ _) (List.sorted_insertionSort _ _)

/-- C8: the thread id pipeline is invariant in the three claimed ways:
the subjects `"Re: Budget"` and `"Budget"` produce the same id for any
participants (the reply tag is stripped by `cleanSubject`); permuting
the recipient list never changes the id; and any two calls whose
normalized subject-plus-participants keys coincide hash to the
identical id (`generate_thread_id` is `uuid5Dns` of the key, a pure
function of the key with the fixed DNS namespace). -/
theorem C8_thread_id_invariance :
    (∀ f t, generate_thread_id "Re: Budget" f t =
      generate_thread_id "Budget" f t) ∧
    (∀ s f t1 t2, t1.Perm t2 →
      generate_thread_id s f t1 = generate_thread_id s f t2) ∧
    (∀ s1 f1 t1 s2 f2 t2, threadKey s1 f1 t1 = threadKey s2 f2 t2 →
      generate_thread_id s1 f1 t1 = generate_thread_id s2 f2 t2) := by
  refine ⟨?_, ?_, ?_⟩
  · intro f t
    unfold generate_thread_id threadKey
    rw [show cleanSubject "Re: Budget" = cleanSubject "Budget" from by decide]
  · intro s f t1 t2 h
    unfold generate_thread_id threadKey
    rw [participantsOf_perm f h]
  · intro s1 f1 t1 s2 f2 t2 h
    unfold generate_thread_id
    exact congrArg uuid5Dns h

/-- C8 witness: the permutation and equal-key parts of
`C8_thread_id_invariance` applied at concrete inputs. -/
theorem C8_witness :
    ((["b@x.com", "a@x.com"] : List String).Perm ["a@x.com", "b@x.com"] ∧
      generate_thread_id "Budget" "c@x.com" ["b@x.com", "a@x.com"] =
        generate_thread_id "Budget" "c@x.com" ["a@x.com", "b@x.com"]) ∧
    (threadKey "Re: Budget" "a@x.com" [] =
        threadKey "Budget" "a@x.com" [] ∧
      generate_thread_id "Re: Budget" "a@x.com" [] =
        generate_thread_id "Budget" "a@x.com" []) :=
  ⟨⟨by decide, C8_thread_id_invariance.2.1 "Budget" "c@x.com" _ _ (by decide)⟩,
    ⟨by decide,
      C8_thread_id_invariance.2.2 "Re: Budget" "a@x.com" _ "Budget" "a@x.com" _
        (by decide)⟩⟩

/-- Prefixing over the space-to-dot character map: testing a three-char
keyword whose characters are none of `'.'`, `' '`, `'@'` against the
mapped name followed by `"@enron.com"` is the same as testing it
against the raw name. -/
theorem isPrefix_synth (x : List Char) (k1 k2 k3 : Char)
    (hd1 : k1 ≠ '.' ∧ k1 ≠ ' ' ∧ k1 ≠ '@')
    (hd2 : k2 ≠ '.' ∧ k2 ≠ ' ' ∧ k2 ≠ '@')
    (hd3 : k3 ≠ '.' ∧ k3 ≠ ' ' ∧ k3 ≠ '@') :
    isPrefixL [k1, k2, k3]
      ((x.map (fun c => if c = ' ' then '.' else c)) ++ "@enron.com".data) =
    isPrefixL [k1, k2, k3] x := by
  have key : ∀ (c k : Char), k ≠ '.' → k ≠ ' ' →
      (decide (k = (if c = ' ' then '.' else c)) = decide (k = c)) := by
    intro c k hk1 hk2
    by_cases hc : c = ' '
    · subst hc
      rw [if_pos rfl, decide_eq_false hk1, decide_eq_false hk2]
    · rw [if_neg hc]
  match x with
  | [] =>
    show isPrefixL [k1, k2, k3] ('@' :: _) = false
    simp [isPrefixL, fun hq => hd1.2.2 hq]
  | [c1] =>
    show isPrefixL [k1, k2, k3] (_ :: '@' :: _) = _
    simp [isPrefixL, key c1 k1 hd1.1 hd1.2.1, fun hq => hd2.2.2 hq]
  | [c1, c2] =>
    show isPrefixL [k1, k2, k3] (_ :: _ :: '@' :: _) = _
    simp [isPrefixL, key c1 k1 hd1.1 hd1.2.1, key c2 k2 hd2.1 hd2.2.1,
      fun hq => hd3.2.2 hq]
  | c1 :: c2 :: c3 :: rest =>
    simp [isPrefixL, key c1 k1 hd1.1 hd1.2.1, key c2 k2 hd2.1 hd2.2.1,
      key c3 k3 hd3.1 hd3.2.1]

/-- An address synthesized from a name that does not start with `"to:"`
or `"cc:"` (case already lowered) does not start with either keyword
once spaces become dots and `"@enron.com"` is appended. -/
theorem synthAddr_keyword_free (x : String)
    (h : pyStartswithAny x ["to:", "cc:"] = false) :
    pyStartswith (pyReplaceChar x ' ' '.' ++ "@enron.com") "to:" = false ∧
    pyStartswith (pyReplaceChar x ' ' '.' ++ "@enron.com") "cc:" = false := by
  simp only [pyStartswithAny, List.any_cons, List.any_nil, Bool.or_false,
    Bool.or_eq_false_iff] at h
  obtain ⟨hto, hcc⟩ := h
  constructor
  · show isPrefixL ['t', 'o', ':']
      ((x.data.map (fun c => if c = ' ' then '.' else c)) ++ "@enron.com".data) = false
    exact (isPrefix_synth x.data 't' 'o' ':'
      (by decide) (by decide) (by decide)).trans hto
  · show isPrefixL ['c', 'c', ':']
      ((x.data.map (fun c => if c = ' ' then '.' else c)) ++ "@enron.com".data) = false
    exact (isPrefix_synth x.data 'c' 'c' ':'
      (by decide) (by decide) (by decide)).trans hcc

/-- C9 (counterexample): the invariant fails for stored addresses that
arrive through the direct-`@` branch of `process_recipients`: the token
`"to:c@d.com"` contains `@`, so it is stored verbatim lowercased by the
Enron-style extractor, and it starts with the keyword `"to:"`. -/
theorem C9_counterexample :
    (extract_enron_style_headers "To: a@b.com, to:c@d.com").to_addrs =
      ["a@b.com", "to:c@d.com"] ∧
    pyStartswith "to:c@d.com" "to:" = true := by
  refine ⟨by decide, by decide⟩

/-- C9 (amended): the keyword guard of `process_recipients` protects
only the synthesized-address branch: every address produced by the
per-part loop either is the whole part verbatim lowercased (the
direct-`@` branch, which may retain a `"to:"`/`"cc:"` fragment) or
starts with neither `"to:"` nor `"cc:"`. -/
theorem C9_synthesized_keyword_free (part0 a : String)
    (ha : a ∈ processRecipientPart part0) :
    a = pyLower (pyStrip part0) ∨
    (pyStartswith a "to:" = false ∧ pyStartswith a "cc:" = false) := by
  simp only [processRecipientPart] at ha
  split at ha
  · cases ha
  split at ha
  · exact Or.inl (List.mem_singleton.mp ha)
  split at ha
  · split at ha
    case _ hg =>
      rw [Bool.and_eq_true] at hg
      have hg2 := hg.2
      rw [Bool.not_eq_true'] at hg2
      rw [List.mem_singleton] at ha
      subst ha
      exact Or.inr (synthAddr_keyword_free _ hg2)
    case _ => cases ha
  · cases ha

/-- C9 witness: `C9_synthesized_keyword_free` applied to the token
`"John Smith/HOU"`, whose synthesized address is keyword-free. -/
theorem C9_witness :
    "john.smith@enron.com" ∈ processRecipientPart "John Smith/HOU" ∧
    ("john.smith@enron.com" = pyLower (pyStrip "John Smith/HOU") ∨
      (pyStartswith "john.smith@enron.com" "to:" = false ∧
        pyStartswith "john.smith@enron.com" "cc:" = false)) :=
  ⟨by decide,
    C9_synthesized_keyword_free "John Smith/HOU" "john.smith@enron.com"
      (by decide)⟩

/-- C10: with a non-empty `file_id`, `generate_id` is the first 16 hex
characters of `md5(file_id)`, independent of both the content and the
`message_index`; hence the top-level record (`message_index = none`)
and every nested record (`message_index = some i`) from the same file
receive the identical id. -/
theorem C10_file_id_determines_id (content c2 fid : String) (i : Nat)
    (h : fid ≠ "") :
    generate_id content (some fid) (some i) = pyTake (md5Hex fid) 16 ∧
    generate_id content (some fid) none = generate_id c2 (some fid) (some i) := by
  simp [generate_id, h]

/-- C10 witness: `C10_file_id_determines_id` at a concrete file id. -/
theorem C10_witness :
    ("f1" : String) ≠ "" ∧
    (generate_id "abc" (some "f1") (some 3) = pyTake (md5Hex "f1") 16 ∧
      generate_id "abc" (some "f1") none = generate_id "zzz" (some "f1") (some 3)) :=
  ⟨by decide, C10_file_id_determines_id "abc" "zzz" "f1" 3 (by decide)⟩

end EnronParser
